import Mathlib

/-!
Verification of the query-routing and context-scoring engine of the
finance-agent backend.  Each definition is a shallow embedding of a Python
function from the repository (file and function named in its doc comment).
Machine reals (Python floats) are modelled as rationals; Python `datetime`
values are modelled as integer minutes, so that `timedelta.days` becomes
floored division by 1440.
-/

/-- Embeds `ContextAnalyzer._days_until_payday`
(`backend/agents/context_analyzer.py`): if `current_day <= payday_day` the
result is `payday_day - current_day`, otherwise
`days_in_month - current_day + payday_day`. -/
def daysUntilPayday (currentDay paydayDay daysInMonth : ℤ) : ℤ :=
  if currentDay ≤ paydayDay then paydayDay - currentDay
  else daysInMonth - currentDay + paydayDay

/-- Embeds `ContextAnalyzer._days_since_payday`
(`backend/agents/context_analyzer.py`): if `current_day >= payday_day` the
result is `current_day - payday_day`, otherwise
`days_in_month - payday_day + current_day`. -/
def daysSincePayday (currentDay paydayDay daysInMonth : ℤ) : ℤ :=
  if paydayDay ≤ currentDay then currentDay - paydayDay
  else daysInMonth - paydayDay + currentDay

/-- The four balance tiers returned by
`ContextAnalyzer._calculate_balance_status`. -/
inductive BalanceStatus where
  | critical
  | low
  | normal
  | healthy
deriving DecidableEq, Repr

/-- Health rank of a balance tier: `critical < low < normal < healthy`. -/
def balanceRank : BalanceStatus → ℕ
  | .critical => 0
  | .low => 1
  | .normal => 2
  | .healthy => 3

/-- Embeds `ContextAnalyzer._calculate_balance_status`
(`backend/agents/context_analyzer.py`): compares `current_balance` against
`minimum_needed = (monthly_budget / 30) * days_until_payday`; below half of
that is critical, below it is low, below 30% of monthly income is normal,
otherwise healthy (first match wins).  Floats are modelled as rationals. -/
def calculateBalanceStatus (monthlyBudget monthlyIncome currentBalance : ℚ)
    (currentDay paydayDay daysInMonth : ℤ) : BalanceStatus :=
  let dailyBudget : ℚ := monthlyBudget / 30
  let minimumNeeded : ℚ :=
    dailyBudget * ((daysUntilPayday currentDay paydayDay daysInMonth : ℤ) : ℚ)
  if currentBalance < minimumNeeded * (1 / 2) then .critical
  else if currentBalance < minimumNeeded then .low
  else if currentBalance < monthlyIncome * (3 / 10) then .normal
  else .healthy

/-- The agent categories of `AgentType` (`backend/models/agent_models.py`),
in enumeration (= dict-insertion) order. -/
inductive AgentType where
  | spending
  | investing
  | savings
  | budget
  | general
deriving DecidableEq, Repr, Fintype

/-- The string value of each `AgentType` enum member. -/
def AgentType.val : AgentType → String
  | .spending => "spending"
  | .investing => "investing"
  | .savings => "savings"
  | .budget => "budget"
  | .general => "general"

/-- ASCII lower-casing of one character, as Python `str.lower` acts on the
ASCII letters (all keyword-table entries and test queries are ASCII). -/
def charLower (c : Char) : Char :=
  if 'A' ≤ c ∧ c ≤ 'Z' then Char.ofNat (c.toNat + 32) else c

/-- Embeds Python `str.lower()` (ASCII fragment). -/
def pyLower (s : String) : String := ⟨s.data.map charLower⟩

/-- Contiguous-sublist test on character lists (helper for `pyInStr`). -/
def subChars : List Char → List Char → Bool
  | needle, [] => needle.isEmpty
  | needle, c :: t => needle.isPrefixOf (c :: t) || subChars needle t

/-- Embeds the Python substring test `needle in hay` on strings. -/
def pyInStr (needle hay : String) : Bool := subChars needle.data hay.data

/-- Keyword table for the spending agent, from `routing_map` in
`UnifiedAgentRouter.__init__` (`backend/agents/unified_agent.py`). -/
def spendingKeywords : List String :=
  ["buy", "purchase", "afford", "should i get", "worth it",
   "spend", "shopping", "expensive", "cost", "price", "item",
   "dining out", "restaurant", "coffee", "impulse", "want"]

/-- Keyword table for the investing agent, from `routing_map`. -/
def investingKeywords : List String :=
  ["invest", "stock", "portfolio", "401k", "ira", "retirement",
   "index fund", "etf", "dividend", "wealth", "grow money",
   "robinhood", "fidelity", "vanguard", "compound", "returns"]

/-- Keyword table for the savings agent, from `routing_map` (the source list
repeats "subscription", and so does this embedding). -/
def savingsKeywords : List String :=
  ["save", "savings", "goal", "emergency fund", "subscription",
   "cancel", "cut back", "reduce", "found money", "extra cash",
   "subscription", "recurring", "membership", "unused"]

/-- Keyword table for the budget agent, from `routing_map`. -/
def budgetKeywords : List String :=
  ["budget", "forecast", "run out", "month end", "overspent",
   "category", "allocation", "on track", "pace", "burn rate",
   "how much left", "can i spend", "dining budget", "grocery budget"]

/-- The keyword table of each category (`general` has none and is excluded
from routing). -/
def routingKeywords : AgentType → List String
  | .spending => spendingKeywords
  | .investing => investingKeywords
  | .savings => savingsKeywords
  | .budget => budgetKeywords
  | .general => []

/-- The `routing_map` dict of `UnifiedAgentRouter`, in insertion order. -/
def routingMap : List (AgentType × List String) :=
  [(.spending, spendingKeywords), (.investing, investingKeywords),
   (.savings, savingsKeywords), (.budget, budgetKeywords)]

/-- Score of one category: the number of its keyword-list entries occurring
as substrings of the lower-cased query (each loop iteration of
`_route_query` adds 1 per matching keyword). -/
def scoreOf (queryLower : String) (keywords : List String) : ℕ :=
  (keywords.filter (fun k => pyInStr k queryLower)).length

/-- Embeds `UnifiedAgentRouter._route_query`
(`backend/agents/unified_agent.py`): scores every non-general category,
returns spending when the maximum score is 0, otherwise the first category
(in dict order) attaining the maximum — Python `max(scores, key=scores.get)`
keeps the earliest maximal entry, which the fold reproduces by replacing the
current best only on a strictly greater score. -/
def routeQuery (query : String) : AgentType :=
  let ql := pyLower query
  let scores : List (AgentType × ℕ) := routingMap.map (fun p => (p.1, scoreOf ql p.2))
  let maxScore : ℕ := (scores.map Prod.snd).foldl max 0
  if maxScore = 0 then .spending
  else
    match scores with
    | [] => .spending
    | s0 :: rest => (rest.foldl (fun best p => if best.2 < p.2 then p else best) s0).1

/-- The `AgentMetadata` pydantic model (`backend/models/agent_models.py`). -/
structure AgentMetadata where
  agent : String
  confidence : ℚ
  personality_used : String
  context_factors : List String
  suggested_action : Option String
  related_transactions : Option (List String)
deriving DecidableEq, Repr

/-- The `AgentResponse` pydantic model (`backend/models/agent_models.py`). -/
structure AgentResponse where
  response : String
  metadata : AgentMetadata
deriving DecidableEq, Repr

/-- One entry of a session's `history` list: the `{query, response, agent}`
dict appended by `_update_session_state`. -/
structure SessionHistoryItem where
  query : String
  response : String
  agent : String
deriving DecidableEq, Repr

/-- The per-session dict `{history, last_agent, last_topics, user_id}` kept
in `UnifiedAgentRouter.sessions` (`backend/agents/unified_agent.py`). -/
structure SessionState where
  history : List SessionHistoryItem
  last_agent : Option String
  last_topics : List String
  user_id : String
deriving DecidableEq, Repr

/-- The fresh session dict created by `_get_session_state` /
`_update_session_state` for an unknown session id. -/
def freshSession (user_id : String) : SessionState :=
  { history := [], last_agent := none, last_topics := [], user_id := user_id }

/-- Python list slicing `l[-n:]`: the last `n` elements (all of them when
the list is shorter). -/
def lastN {α : Type} (n : ℕ) (l : List α) : List α := l.drop (l.length - n)

/-- Assignment `d[k] = v` on an insertion-ordered dict modelled as an
association list: replaces the first binding of `k` in place, else appends. -/
def dictSet {α : Type} : List (String × α) → String → α → List (String × α)
  | [], k, v => [(k, v)]
  | (k1, v1) :: rest, k, v =>
    if k1 = k then (k, v) :: rest else (k1, v1) :: dictSet rest k v

/-- Embeds `UnifiedAgentRouter._update_session_state`
(`backend/agents/unified_agent.py`): a falsy session id (`None` or the empty
string) is a no-op; otherwise the interaction triple is appended to
`history` truncated to the last 5 entries, `last_agent` is set, and a truthy
`suggested_action` is appended to `last_topics` truncated to the last 3. -/
def updateSessionState (sessions : List (String × SessionState))
    (session_id : Option String) (user_id query : String)
    (resp : AgentResponse) (agent_used : String) :
    List (String × SessionState) :=
  match session_id with
  | none => sessions
  | some sid =>
    if sid = "" then sessions
    else
      let s := (sessions.lookup sid).getD (freshSession user_id)
      let hist := lastN 5 (s.history ++ [⟨query, resp.response, agent_used⟩])
      let topics :=
        match resp.metadata.suggested_action with
        | some act => if act = "" then s.last_topics else lastN 3 (s.last_topics ++ [act])
        | none => s.last_topics
      dictSet sessions sid
        { history := hist, last_agent := some agent_used,
          last_topics := topics, user_id := s.user_id }

/-- The arguments of one `_update_session_state` call. -/
structure UpdateOp where
  session_id : Option String
  user_id : String
  query : String
  resp : AgentResponse
  agent_used : String

/-- A sequence of `_update_session_state` calls applied to the session
store, as performed once per processed query. -/
def applyUpdates (ops : List UpdateOp) (sessions : List (String × SessionState)) :
    List (String × SessionState) :=
  ops.foldl (fun m op =>
    updateSessionState m op.session_id op.user_id op.query op.resp op.agent_used) sessions

/-- The session-store invariant claimed by the spec: every stored session
has at most 5 history entries and at most 3 remembered topics. -/
def SessionInv (m : List (String × SessionState)) : Prop :=
  ∀ p ∈ m, p.2.history.length ≤ 5 ∧ p.2.last_topics.length ≤ 3

/-- The previous-turn f-string of `_build_enhanced_query`
(`backend/agents/unified_agent.py`), with the response truncated to its
first 100 characters. -/
def prevContextPart (recent : SessionHistoryItem) : String :=
  "\n[Previous context: User previously asked about \x27" ++ recent.query ++
    "\x27 and you responded about \x27" ++ recent.response.take 100 ++ "...\x27]"

/-- The previous-agent f-string of `_build_enhanced_query`. -/
def lastAgentPart (la : String) : String :=
  "[Previously discussing with " ++ la ++ " agent]"

/-- Embeds `UnifiedAgentRouter._build_enhanced_query`
(`backend/agents/unified_agent.py`): starts from the original query, appends
the previous-turn summary when the history is nonempty (`history[-1]` is the
last element, here `getLast?`), appends the previous-agent note whenever
`last_agent` is truthy, and joins the parts with newlines. -/
def buildEnhancedQuery (query : String) (s : SessionState) : String :=
  let parts1 := [query]
  let parts2 :=
    match s.history.getLast? with
    | some recent => parts1 ++ [prevContextPart recent]
    | none => parts1
  let parts3 :=
    match s.last_agent with
    | some la => if la = "" then parts2 else parts2 ++ [lastAgentPart la]
    | none => parts2
  String.intercalate "\n" parts3

/-- A Python value in the confidence slot of a parsed reply: `float()`
succeeds on numbers (modelled as rationals) and raises otherwise. -/
inductive PyNum where
  | num (q : ℚ)
  | nonNum
deriving DecidableEq, Repr

/-- A Python value in the context-factors slot: either a list of strings or
a non-list value carried together with its `str()` rendering. -/
inductive CtxVal where
  | strs (l : List String)
  | other (rendered : String)
deriving DecidableEq, Repr

/-- A metadata dict as exchanged between `generate_response`,
`_validate_response_structure` and `_standardize_response`; `none` models an
absent key (an explicit `None` value behaves like an absent key for every
`dict.get` in those functions, so the two are identified). -/
structure MetaDict where
  agent : Option String
  confidence : Option PyNum
  personality_used : Option String
  context_factors : Option CtxVal
  suggested_action : Option String
  related_transactions : Option (List String)
deriving DecidableEq, Repr

/-- A top-level reply dict (`{"response": ..., "metadata": ...}`). -/
structure GenDict where
  response : Option String
  metadata : Option MetaDict
deriving DecidableEq, Repr

/-- The empty dict default used by `result.get("metadata", {})`. -/
def emptyMetaDict : MetaDict := ⟨none, none, none, none, none, none⟩

/-- Embeds `GeminiService._validate_response_structure`
(`backend/services/gemini_service.py`): fills every missing field with its
default, coerces confidence to a number clamped to [0,1] (0.7 when the
coercion raises), and wraps a non-list context-factors value in a
singleton list of its `str()` rendering. -/
def validateResponseStructure (r : GenDict) : GenDict :=
  let response := some (r.response.getD "No response provided")
  let md := r.metadata.getD emptyMetaDict
  let agent := some (md.agent.getD "general")
  let conf : ℚ :=
    match md.confidence.getD (.num (7/10)) with
    | .num q => max 0 (min 1 q)
    | .nonNum => 7/10
  let personality := some (md.personality_used.getD "unknown")
  let cf : List String :=
    match md.context_factors.getD (.strs []) with
    | .strs l => l
    | .other s => [s]
  { response := response,
    metadata := some ⟨agent, some (.num conf), personality, some (.strs cf),
      md.suggested_action, md.related_transactions⟩ }

/-- The `error_response` dict built by the `except` branch of
`generate_response`: confidence 0.0, context factor "error_occurred",
suggested action "retry", and a response text citing the exception. -/
def errorResponse (msg : String) : GenDict :=
  { response := some ("I encountered an error processing your request. Please try again. Error: " ++ msg),
    metadata := some ⟨some "error", some (.num 0), some "none",
      some (.strs ["error_occurred"]), some "retry", none⟩ }

/-- The `fallback_response` dict built when the reply text does not parse
into a dict with "response" and "metadata" keys: confidence 0.7 and context
factor "parsing_failed". -/
def fallbackResponse (text : String) : GenDict :=
  { response := some text,
    metadata := some ⟨some "general", some (.num (7/10)), some "unknown",
      some (.strs ["parsing_failed"]), none, none⟩ }

/-- What one attempt of `generate_response` observes of its collaborators:
`rateLimit` is `_check_rate_limit` raising `RateLimitError` (before the
`try` block), `genFailure` is `_generate_content_text` raising (caught by
the `except` branch), and `reply` is returned text together with the
outcome of the regex-based `_extract_json` on it (abstracted as the parse
result the input carries). -/
inductive AttemptOutcome where
  | rateLimit
  | genFailure (msg : String)
  | reply (text : String) (parsed : Option GenDict)
deriving DecidableEq, Repr

/-- Embeds one attempt of `GeminiService.generate_response`
(`backend/services/gemini_service.py`, cache path not taken): the rate-limit
check raises outside the `try` block, a generation failure is converted to
`errorResponse`, a reply missing "response" or "metadata" keys is wrapped by
`fallbackResponse`, and a complete parse is normalized. -/
def generateOnce : AttemptOutcome → Except String GenDict
  | .rateLimit => .error "RateLimitError"
  | .genFailure msg => .ok (errorResponse msg)
  | .reply text parsed =>
    match parsed with
    | some p =>
      if p.response.isSome ∧ p.metadata.isSome then .ok (validateResponseStructure p)
      else .ok (fallbackResponse text)
    | none => .ok (fallbackResponse text)

/-- Embeds the `retry_with_backoff(max_retries=3)` wrapper around
`generate_response`: retries while attempts raise, and re-raises the last
exception after the final attempt; the input lists the outcome of each
attempt in order (four entries cover a full run). -/
def generateWithRetry : List AttemptOutcome → Except String GenDict
  | [] => .error "no attempts"
  | [o] => generateOnce o
  | o :: o2 :: rest =>
    match generateOnce o with
    | .ok r => .ok r
    | .error _ => generateWithRetry (o2 :: rest)

/-- Embeds `BaseAgent._standardize_response`
(`backend/agents/base_agent.py`): fills each metadata field from the result
dict or a locally computed default; a falsy context-factors value is
replaced by the analyzer's factors (`... or context_factors`); a
non-numeric confidence would make the pydantic constructor raise, but every
dict produced by `generate_response` carries a numeric one, so this
unreachable branch is modelled by the 0.7 default. -/
def standardizeResponse (result : GenDict) (contextFactors : List String)
    (personality agentVal : String) : AgentResponse :=
  let responseText := result.response.getD "I apologize, I couldn\x27t process that request."
  let md := result.metadata.getD emptyMetaDict
  let conf : ℚ :=
    match md.confidence.getD (.num (7/10)) with
    | .num q => q
    | .nonNum => 7/10
  let cfv : List String :=
    match md.context_factors with
    | some (.strs l) => l
    | some (.other s) => [s]
    | none => contextFactors
  let cf := if cfv = [] then contextFactors else cfv
  { response := responseText,
    metadata :=
      { agent := md.agent.getD agentVal,
        confidence := conf,
        personality_used := md.personality_used.getD personality,
        context_factors := cf,
        suggested_action := md.suggested_action,
        related_transactions := md.related_transactions } }

/-- The generation stage of `BaseAgent.process`
(`backend/agents/base_agent.py`): calls the retried `generate_response`
(uncaught exceptions propagate) and standardizes a returned dict. -/
def processPipeline (attempts : List AttemptOutcome) (contextFactors : List String)
    (personality agentVal : String) : Except String AgentResponse :=
  match generateWithRetry attempts with
  | .error e => .error e
  | .ok r => .ok (standardizeResponse r contextFactors personality agentVal)

/-- The fields of the legacy `context` dict read by `Router.dispatch`
(`backend/router.py`); `none` models an absent key. -/
structure LegacyContext where
  user_id : Option String
  session_id : Option String
  tone : Option String
deriving DecidableEq, Repr

/-- The `AgentQuery` assembled by `Router.dispatch` (query text, the user
context fields it sets, and the session id). -/
structure AgentQueryModel where
  query : String
  user_id : String
  financial_personality : String
  session_id : Option String
deriving DecidableEq, Repr

/-- Embeds `Router._map_legacy_tone_to_personality` (`backend/router.py`):
falsy tone gives supportive; otherwise the stripped lower-cased tone is
looked up in the synonym dict with supportive as the default. -/
def mapLegacyTone (tone : Option String) : String :=
  match tone with
  | none => "supportive"
  | some t =>
    if t = "" then "supportive"
    else
      let tl := pyLower t.trim
      if tl = "zen" then "zen"
      else if tl = "zen_coach" then "zen"
      else if tl = "tough" then "tough_love"
      else if tl = "tough_love" then "tough_love"
      else if tl = "support" then "supportive"
      else if tl = "to_the_point" then "to_the_point"
      else if tl = "no_bs" then "no_bs"
      else "supportive"

/-- Embeds the request assembly of `Router.dispatch` (`backend/router.py`,
lines 34-50): `user_id = str(context.get("user_id", "unknown_user"))`, the
query text passed through unchanged, the tone mapped to a personality; no
branch of `dispatch` rejects a request. -/
def dispatchBuildQuery (message : String) (ctx : LegacyContext) : AgentQueryModel :=
  { query := message,
    user_id := ctx.user_id.getD "unknown_user",
    financial_personality := mapLegacyTone ctx.tone,
    session_id := ctx.session_id }

/-- A Python value stored in the per-user memory dict consumed by
`ToneEngine` (`backend/personality/tone_engine.py`).  A string value carries
the outcome of `datetime.fromisoformat` on it: `some t` when it parses
(with `t` the timestamp in minutes, so `timedelta.days` is floored division
by 1440), `none` when parsing raises. -/
inductive PyVal where
  | none
  | num (q : ℚ)
  | str (s : String) (iso : Option ℤ)
  | list (xs : List PyVal)
  | dict (kvs : List (String × PyVal))

/-- The uncaught exception kinds the tone-engine code can raise.
`ValueError` from `fromisoformat` is always caught together with
`TypeError`, so a single constructor covers both parse failures. -/
inductive PyErr where
  | attributeError
  | typeError
deriving DecidableEq, Repr

/-- Python truthiness of a value (`if not x`). -/
def PyVal.truthy : PyVal → Bool
  | .none => false
  | .num q => q != 0
  | .str s _ => s != ""
  | .list xs => !xs.isEmpty
  | .dict kvs => !kvs.isEmpty

/-- Python `x.get(k, default)`: returns the stored value or the default on
a dict, raises `AttributeError` on any non-dict. -/
def PyVal.get (v : PyVal) (k : String) (dflt : PyVal) : Except PyErr PyVal :=
  match v with
  | .dict kvs => .ok ((kvs.lookup k).getD dflt)
  | _ => .error .attributeError

/-- `datetime.fromisoformat(x)`: succeeds exactly on parseable strings
(whose parse the value carries); a non-string raises `TypeError` and an
unparseable string raises `ValueError`, both modelled as the same caught
error. -/
def fromIso : PyVal → Except PyErr ℤ
  | .str _ (some t) => .ok t
  | .str _ Option.none => .error .typeError
  | _ => .error .typeError

/-- The Python comparison `x > 0`: decides for numbers and raises
`TypeError` for every other value. -/
def pyGtZero : PyVal → Except PyErr Bool
  | .num q => .ok (decide (0 < q))
  | _ => .error .typeError

/-- The Python comparison `x == "lit"` on a memory value (never raises). -/
def pyEqStr : PyVal → String → Bool
  | .str s2 _, s => s2 == s
  | _, _ => false

/-- Round-half-to-even on rationals (Python `round`). -/
def roundHalfEven (x : ℚ) : ℤ :=
  let f := Int.floor x
  let frac := x - f
  if frac < 1/2 then f
  else if 1/2 < frac then f + 1
  else if f % 2 = 0 then f else f + 1

/-- Python `round(x, 2)`. -/
def round2 (x : ℚ) : ℚ := (roundHalfEven (x * 100) : ℚ) / 100

/-- Decimal rendering used by the `:.2f` f-string slots; the exact digits
are not part of any claim, only that formatting a number never fails. -/
def formatMoney (q : ℚ) : String := toString (round2 q)

/-- Embeds `ToneEngine._generate_payday_warning`
(`backend/personality/tone_engine.py`); comparing a non-numeric stored
average with 0 raises `TypeError`. -/
def generatePaydayWarning (avg : PyVal) (_daysSince : ℤ) : Except PyErr String :=
  match pyGtZero avg with
  | .error e => .error e
  | .ok true =>
    match avg with
    | .num q =>
      .ok ("Heads up: you typically overspend by $" ++ formatMoney q ++
        " in the 3 days after getting paid")
    | _ => .error .typeError
  | .ok false => .ok "You just got paid—this is when you typically spend more."

/-- Embeds `ToneEngine._generate_payday_suggestion`
(`backend/personality/tone_engine.py`): suggests transferring
`min(average_overspend * 0.5, 200)` when the average is positive, else a
fixed 200. -/
def generatePaydaySuggestion (avg : PyVal) (_currentSpending : ℚ) : Except PyErr String :=
  match pyGtZero avg with
  | .error e => .error e
  | .ok true =>
    match avg with
    | .num q =>
      .ok ("You just got paid—want to transfer $" ++ formatMoney (min (q / 2) 200) ++
        " to savings first?")
    | _ => .error .typeError
  | .ok false => .ok "You just got paid—want to transfer $200 to savings first?"

/-- One loop iteration of `ToneEngine._get_current_payday_spending`
(`backend/personality/tone_engine.py`): non-dict entries, falsy or
unparseable or non-string dates, out-of-range dates and non-numeric
amounts contribute nothing; an absent amount key defaults to 0. -/
def spendingStep (paydayDate currentDate : ℤ) (total : ℚ) (entry : PyVal) : ℚ :=
  match entry with
  | .dict kvs =>
    match (kvs.lookup "date").getD .none with
    | .str s (some t) =>
      if s = "" then total
      else if paydayDate ≤ t ∧ t ≤ currentDate then
        match (kvs.lookup "amount").getD (.num 0) with
        | .num a => total + a
        | _ => total
      else total
    | _ => total
  | _ => total

/-- The whole entry loop of `_get_current_payday_spending`. -/
def spendingFold (entries : List PyVal) (paydayDate currentDate : ℤ) : ℚ :=
  entries.foldl (spendingStep paydayDate currentDate) 0

/-- Embeds `ToneEngine._get_current_payday_spending`: a falsy
`spending_history` yields 0.0; iterating a truthy dict or string yields
keys or characters, which the `isinstance` check skips (total 0); a truthy
number is not iterable and raises `TypeError`. -/
def getCurrentPaydaySpending (memory : PyVal) (paydayDate currentDate : ℤ) :
    Except PyErr ℚ :=
  match memory.get "spending_history" (.list []) with
  | .error e => .error e
  | .ok sh =>
    if sh.truthy = false then .ok 0
    else
      match sh with
      | .list entries => .ok (spendingFold entries paydayDate currentDate)
      | .dict _ => .ok 0
      | .str _ _ => .ok 0
      | .num _ => .error .typeError
      | .none => .ok 0

/-- The dict returned by `ToneEngine.detect_payday_effect` when the payday
window is active. -/
structure PaydayEffect where
  is_payday_period : Bool
  days_since_payday : ℤ
  average_overspend : PyVal
  current_spending : ℚ
  warning_message : String
  suggestion : String

/-- Embeds `ToneEngine.detect_payday_effect`
(`backend/personality/tone_engine.py`) with `payday_detection_window = 3`:
falsy memory, falsy `payday_info`, falsy or unparseable `last_payday`, and
a day difference outside `[0, 3]` all yield `None`; otherwise the effect
dict is built.  `Except.error` models an uncaught Python exception. -/
def detectPaydayEffect (memory : PyVal) (currentDate : ℤ) :
    Except PyErr (Option PaydayEffect) :=
  if memory.truthy = false then .ok Option.none
  else
    match memory.get "payday_info" (.dict []) with
    | .error e => .error e
    | .ok paydayInfo =>
      if paydayInfo.truthy = false then .ok Option.none
      else
        match paydayInfo.get "last_payday" .none with
        | .error e => .error e
        | .ok lastPaydayV =>
          if lastPaydayV.truthy = false then .ok Option.none
          else
            match fromIso lastPaydayV with
            | .error _ => .ok Option.none
            | .ok lastPayday =>
              let daysSince := Int.fdiv (currentDate - lastPayday) 1440
              if daysSince < 0 ∨ 3 < daysSince then .ok Option.none
              else
                match paydayInfo.get "spending_patterns" (.dict []) with
                | .error e => .error e
                | .ok spendingPatterns =>
                  match spendingPatterns.get "average_overspend_after_payday" (.num 0) with
                  | .error e => .error e
                  | .ok avgV =>
                    match getCurrentPaydaySpending memory lastPayday currentDate with
                    | .error e => .error e
                    | .ok currentSpending =>
                      match generatePaydayWarning avgV daysSince with
                      | .error e => .error e
                      | .ok warning =>
                        match generatePaydaySuggestion avgV currentSpending with
                        | .error e => .error e
                        | .ok suggestion =>
                          .ok (some ⟨true, daysSince, avgV, currentSpending,
                            warning, suggestion⟩)

/-- Lexicographic code-point comparison on character lists, as Python
compares strings. -/
def charListLe : List Char → List Char → Bool
  | [], _ => true
  | _ :: _, [] => false
  | a :: as, b :: bs =>
    if a.toNat < b.toNat then true
    else if b.toNat < a.toNat then false
    else charListLe as bs

/-- Python string `<=` (code-point lexicographic). -/
def pyStrLe (a b : String) : Bool := charListLe a.data b.data

/-- Sort order used by `sorted(spending_history, key=...)`: compare the
date keys of two keyed entries. -/
def entryLe (a b : String × PyVal) : Prop := pyStrLe a.1 b.1 = true

instance : DecidableRel entryLe := fun a b => by unfold entryLe; infer_instance

/-- The sort key `x.get("date", "")` built by `sorted` for every entry
before any comparison: a non-dict entry raises `AttributeError`; a
non-string date key is modelled as the `TypeError` its comparison raises
(exact for mixed-type keys). -/
def entrySortKey : PyVal → Except PyErr String
  | .dict kvs =>
    match (kvs.lookup "date").getD (.str "" Option.none) with
    | .str s _ => .ok s
    | _ => .error .typeError
  | _ => .error .attributeError

/-- Builds the (key, entry) pairs for all entries, propagating key errors
as `sorted` would. -/
def collectKeys : List PyVal → Except PyErr (List (String × PyVal))
  | [] => .ok []
  | e :: rest =>
    match entrySortKey e with
    | .error err => .error err
    | .ok k =>
      match collectKeys rest with
      | .error err => .error err
      | .ok ks => .ok ((k, e) :: ks)

/-- One loop iteration of `ToneEngine._calculate_payday_patterns`
(`backend/personality/tone_engine.py`): the state is (closed periods,
current period amounts, date of the current period's first entry); an
entry more than 3 days after the period start closes it; entries typed
`payday_period` contribute their amount. -/
def groupStep : (List (List PyVal) × List PyVal × Option ℤ) → PyVal →
    (List (List PyVal) × List PyVal × Option ℤ)
  | (periods, current, lastPayday), entry =>
    match entry with
    | .dict kvs =>
      match (kvs.lookup "date").getD .none with
      | .str s (some t) =>
        if s = "" then (periods, current, lastPayday)
        else
          let isNew : Bool :=
            match lastPayday with
            | Option.none => true
            | some lp => decide (3 < Int.fdiv (t - lp) 1440)
          let next :=
            if isNew then
              ((if current.isEmpty then periods else periods ++ [current]),
                ([] : List PyVal), some t)
            else (periods, current, lastPayday)
          if pyEqStr ((kvs.lookup "type").getD .none) "payday_period" then
            (next.1, next.2.1 ++ [(kvs.lookup "amount").getD (.num 0)], next.2.2)
          else next
      | _ => (periods, current, lastPayday)
    | _ => (periods, current, lastPayday)

/-- Python `sum(xs)` over memory values: raises `TypeError` on a
non-numeric element. -/
def pySum : List PyVal → Except PyErr ℚ
  | [] => .ok 0
  | v :: rest =>
    match v with
    | .num q =>
      match pySum rest with
      | .ok s => .ok (q + s)
      | .error e => .error e
    | _ => .error .typeError

/-- The list comprehension `[sum(period) for period in payday_periods if period]`. -/
def periodTotals : List (List PyVal) → Except PyErr (List ℚ)
  | [] => .ok []
  | p :: rest =>
    match pySum p with
    | .error e => .error e
    | .ok t =>
      match periodTotals rest with
      | .error e => .error e
      | .ok ts => .ok (t :: ts)

/-- The in-place mutations `spending_patterns[...] = ...` and
`payday_info["spending_patterns"] = spending_patterns` as seen through the
memory dict: visible only when the memory actually holds the `payday_info`
dict (otherwise the mutated dicts are the orphan `.get` defaults and the
memory is unchanged). -/
def setPatterns (memory patterns : PyVal) : PyVal :=
  match memory with
  | .dict kvs =>
    match kvs.lookup "payday_info" with
    | some (.dict pk) =>
      .dict (dictSet kvs "payday_info" (.dict (dictSet pk "spending_patterns" patterns)))
    | _ => memory
  | _ => memory

/-- Embeds `ToneEngine._calculate_payday_patterns`
(`backend/personality/tone_engine.py`): sorts the history by date string,
groups it into payday periods (gap measured from the period's first
entry, window 3 days), stores the rounded mean of per-period overspends
`max(0, total - 100)` and the period lists when any period exists, and
leaves the stored patterns unchanged otherwise; returns the post-mutation
memory. -/
def calculatePaydayPatterns (memory : PyVal) : Except PyErr PyVal :=
  match memory.get "payday_info" (.dict []) with
  | .error e => .error e
  | .ok paydayInfoV =>
    match paydayInfoV.get "spending_patterns" (.dict []) with
    | .error e => .error e
    | .ok spendingPatternsV =>
      match memory.get "spending_history" (.list []) with
      | .error e => .error e
      | .ok shV =>
        if shV.truthy = false then .ok memory
        else
          match shV with
          | .list entries =>
            match collectKeys entries with
            | .error e => .error e
            | .ok keyed =>
              let sortedEntries := (List.insertionSort entryLe keyed).map Prod.snd
              let st := sortedEntries.foldl groupStep ([], [], Option.none)
              let paydayPeriods := st.1 ++ (if st.2.1.isEmpty then [] else [st.2.1])
              if paydayPeriods.isEmpty then .ok (setPatterns memory spendingPatternsV)
              else
                match periodTotals (paydayPeriods.filter (fun p => !p.isEmpty)) with
                | .error e => .error e
                | .ok totals =>
                  if totals.isEmpty then .ok (setPatterns memory spendingPatternsV)
                  else
                    let overspends := totals.map (fun tot => max 0 (tot - 100))
                    let avg : ℚ :=
                      if overspends.isEmpty then 0 else overspends.sum / overspends.length
                    match spendingPatternsV with
                    | .dict spk =>
                      let patterns2 := PyVal.dict (dictSet (dictSet spk
                        "average_overspend_after_payday" (.num (round2 avg)))
                        "payday_periods" (.list (paydayPeriods.map PyVal.list)))
                      .ok (setPatterns memory patterns2)
                    | _ => .error .typeError
          | .dict _ => .error .attributeError
          | .str _ _ => .error .attributeError
          | .num _ => .error .typeError
          | .none => .ok memory

/-- Reads `memory["payday_info"]["spending_patterns"]["average_overspend_after_payday"]`. -/
def getStoredAvg (m : PyVal) : Option PyVal :=
  match m with
  | .dict kvs =>
    match kvs.lookup "payday_info" with
    | some (.dict pk) =>
      match pk.lookup "spending_patterns" with
      | some (.dict sp) => sp.lookup "average_overspend_after_payday"
      | _ => Option.none
    | _ => Option.none
  | _ => Option.none

/-- Reads `memory["payday_info"]["spending_patterns"]["payday_periods"]`. -/
def getStoredPeriods (m : PyVal) : Option PyVal :=
  match m with
  | .dict kvs =>
    match kvs.lookup "payday_info" with
    | some (.dict pk) =>
      match pk.lookup "spending_patterns" with
      | some (.dict sp) => sp.lookup "payday_periods"
      | _ => Option.none
    | _ => Option.none
  | _ => Option.none

/-- A well-formed spending-history entry: a dict with a parseable
non-empty date string, a type tag and a numeric amount. -/
structure WfEntry where
  dateStr : String
  dateMin : ℤ
  tp : String
  amount : ℚ

/-- The memory dict corresponding to a well-formed entry. -/
def WfEntry.toPy (e : WfEntry) : PyVal :=
  .dict [("date", .str e.dateStr (some e.dateMin)), ("type", .str e.tp Option.none),
         ("amount", .num e.amount)]

/-- The payday-typed amounts of a run of entries, as memory values. -/
def payAmounts (run : List WfEntry) : List PyVal :=
  (run.filter (fun e => e.tp = "payday_period")).map (fun e => PyVal.num e.amount)

/-- Modelled from the amended claim: split entries into periods, starting a
new period whenever an entry's date is more than 3 days after the first
entry of the current period. -/
def specSplitGo (start : ℤ) (cur : List WfEntry) : List WfEntry → List (List WfEntry)
  | [] => [cur]
  | e :: rest =>
    if 3 < Int.fdiv (e.dateMin - start) 1440 then cur :: specSplitGo e.dateMin [e] rest
    else specSplitGo start (cur ++ [e]) rest

/-- Modelled from the amended claim: period partition of a history. -/
def specSplit : List WfEntry → List (List WfEntry)
  | [] => []
  | e :: rest => specSplitGo e.dateMin [e] rest

/-- The payday-typed amounts of a run, as rationals. -/
def payAmountsQ (run : List WfEntry) : List ℚ :=
  (run.filter (fun e => e.tp = "payday_period")).map (fun e => e.amount)

/-- Modelled from the amended claim: the nonempty per-period contribution
lists of a history. -/
def specPeriodsQ (l : List WfEntry) : List (List ℚ) :=
  ((specSplit l).map payAmountsQ).filter (fun p => p ≠ [])

/-- Modelled from the amended claim: per-period overspends
`max(0, total - 100)`. -/
def specOverspends (l : List WfEntry) : List ℚ :=
  (specPeriodsQ l).map (fun p => max 0 (p.sum - 100))

/-- Modelled from the amended claim: mean of the per-period overspends,
rounded to two decimals. -/
def specAverage (l : List WfEntry) : ℚ :=
  round2 ((specOverspends l).sum / ((specOverspends l).length : ℚ))

/-- A memory dict holding prior spending patterns and a well-formed
spending history. -/
def mkMemory (priorPatterns : List (String × PyVal)) (hist : List WfEntry) : PyVal :=
  .dict [("payday_info", .dict [("spending_patterns", .dict priorPatterns)]),
         ("spending_history", .list (hist.map WfEntry.toPy))]

/-- The memory shapes on which `detect_payday_effect` cannot raise: a
truthy `payday_info` must be a dict, a present `spending_patterns` must be
a dict with a numeric stored average, and a present `spending_history`
must be a list. -/
def WellShapedMem (kvs : List (String × PyVal)) : Prop :=
  (∀ v, kvs.lookup "payday_info" = some v → v.truthy = true → ∃ pi, v = .dict pi) ∧
  (∀ pi w, kvs.lookup "payday_info" = some (.dict pi) →
    pi.lookup "spending_patterns" = some w → ∃ l, w = .dict l ∧
      (∀ v2, l.lookup "average_overspend_after_payday" = some v2 → ∃ q, v2 = .num q)) ∧
  (∀ v, kvs.lookup "spending_history" = some v → ∃ l, v = .list l)

/-- C1 counterexample: in a 28-day month, on day 1, with `payday_day = 31`
(a valid day-of-month in 1..31), `_days_until_payday` returns 30, which
exceeds the 28 days of the month, and `_days_since_payday` returns -2,
which is negative; when `current_day = payday_day` both are still 0. -/
theorem daysPayday_claim_false :
    (1 : ℤ) ≤ 1 ∧ (1 : ℤ) ≤ 28 ∧ (1 : ℤ) ≤ 31 ∧ (31 : ℤ) ≤ 31 ∧
    (28 : ℤ) ≤ 28 ∧ (28 : ℤ) ≤ 31 ∧
    daysUntilPayday 1 31 28 = 30 ∧ ¬ daysUntilPayday 1 31 28 ≤ 28 ∧
    daysSincePayday 1 31 28 = -2 ∧ ¬ 0 ≤ daysSincePayday 1 31 28 := by
  norm_num [daysUntilPayday, daysSincePayday]

/-- C1 (amended): when additionally `payday_day` does not exceed the number
of days in the current month, both `_days_until_payday` and
`_days_since_payday` return values in `[0, days_in_month]`, and when
`current_day = payday_day` both return 0. -/
theorem daysPayday_bounds (currentDay paydayDay daysInMonth : ℤ)
    (hc1 : 1 ≤ currentDay) (hc2 : currentDay ≤ daysInMonth)
    (hp1 : 1 ≤ paydayDay) (hp2 : paydayDay ≤ daysInMonth) :
    0 ≤ daysUntilPayday currentDay paydayDay daysInMonth ∧
    daysUntilPayday currentDay paydayDay daysInMonth ≤ daysInMonth ∧
    0 ≤ daysSincePayday currentDay paydayDay daysInMonth ∧
    daysSincePayday currentDay paydayDay daysInMonth ≤ daysInMonth ∧
    (currentDay = paydayDay →
      daysUntilPayday currentDay paydayDay daysInMonth = 0 ∧
      daysSincePayday currentDay paydayDay daysInMonth = 0) := by
  unfold daysUntilPayday daysSincePayday
  split_ifs <;> omega

/-- C1 witness: the amended bounds at `current_day = 26`,
`payday_day = 28`, `days_in_month = 30`. -/
theorem daysPayday_bounds_witness :
    0 ≤ daysUntilPayday 26 28 30 ∧ daysUntilPayday 26 28 30 ≤ 30 ∧
    0 ≤ daysSincePayday 26 28 30 ∧ daysSincePayday 26 28 30 ≤ 30 ∧
    ((26 : ℤ) = 28 → daysUntilPayday 26 28 30 = 0 ∧ daysSincePayday 26 28 30 = 0) :=
  daysPayday_bounds 26 28 30 (by norm_num) (by norm_num) (by norm_num) (by norm_num)

/-- C8: `_calculate_balance_status` is monotone in `current_balance` with
all other inputs (budget, income, payday day, current date) held fixed:
a larger balance never yields a strictly less healthy tier. -/
theorem balanceStatus_monotone (monthlyBudget monthlyIncome b1 b2 : ℚ)
    (currentDay paydayDay daysInMonth : ℤ) (hb : b1 ≤ b2) :
    balanceRank (calculateBalanceStatus monthlyBudget monthlyIncome b1
      currentDay paydayDay daysInMonth) ≤
    balanceRank (calculateBalanceStatus monthlyBudget monthlyIncome b2
      currentDay paydayDay daysInMonth) := by
  unfold calculateBalanceStatus
  dsimp only
  split_ifs <;> simp [balanceRank] <;> linarith

/-- C8 witness: monotonicity applied at balances 50 ≤ 5000 with budget 1200,
income 5000, on day 26 of a 30-day month with payday day 28. -/
theorem balanceStatus_monotone_witness :
    balanceRank (calculateBalanceStatus 1200 5000 50 26 28 30) ≤
    balanceRank (calculateBalanceStatus 1200 5000 5000 26 28 30) :=
  balanceStatus_monotone 1200 5000 50 5000 26 28 30 (by norm_num)

/-- Helper: the routed category attains a score at least that of each of the
four scored categories. -/
theorem router_picks_max (q : String) :
    scoreOf (pyLower q) spendingKeywords ≤
      scoreOf (pyLower q) (routingKeywords (routeQuery q)) ∧
    scoreOf (pyLower q) investingKeywords ≤
      scoreOf (pyLower q) (routingKeywords (routeQuery q)) ∧
    scoreOf (pyLower q) savingsKeywords ≤
      scoreOf (pyLower q) (routingKeywords (routeQuery q)) ∧
    scoreOf (pyLower q) budgetKeywords ≤
      scoreOf (pyLower q) (routingKeywords (routeQuery q)) := by
  unfold routeQuery
  dsimp only [routingMap, List.map, List.foldl]
  generalize hg1 : scoreOf (pyLower q) spendingKeywords = n1
  generalize hg2 : scoreOf (pyLower q) investingKeywords = n2
  generalize hg3 : scoreOf (pyLower q) savingsKeywords = n3
  generalize hg4 : scoreOf (pyLower q) budgetKeywords = n4
  split_ifs <;>
    simp only [routingKeywords, hg1, hg2, hg3, hg4] <;> omega

/-- Helper: the router never selects the general category. -/
theorem router_ne_general (q : String) : routeQuery q ≠ AgentType.general := by
  unfold routeQuery
  dsimp only [routingMap, List.map, List.foldl]
  generalize scoreOf (pyLower q) spendingKeywords = n1
  generalize scoreOf (pyLower q) investingKeywords = n2
  generalize scoreOf (pyLower q) savingsKeywords = n3
  generalize scoreOf (pyLower q) budgetKeywords = n4
  split_ifs <;> simp_all

/-- Helper: when every category scores 0 the router falls back to spending. -/
theorem router_zero (q : String)
    (hz : ∀ a : AgentType, scoreOf (pyLower q) (routingKeywords a) = 0) :
    routeQuery q = AgentType.spending := by
  unfold routeQuery
  dsimp only [routingMap, List.map, List.foldl]
  have h1 := hz AgentType.spending
  have h2 := hz AgentType.investing
  have h3 := hz AgentType.savings
  have h4 := hz AgentType.budget
  simp only [routingKeywords] at h1 h2 h3 h4
  rw [h1, h2, h3, h4]
  simp

set_option maxHeartbeats 2000000 in
/-- Helper: concrete routing of the index-fund query. -/
theorem router_example :
    routeQuery "Should I invest in an index fund?" = AgentType.investing ∧
    1 ≤ scoreOf (pyLower "Should I invest in an index fund?")
        (routingKeywords AgentType.investing) ∧
    (∀ a : AgentType, a ≠ AgentType.investing → a ≠ AgentType.general →
      scoreOf (pyLower "Should I invest in an index fund?") (routingKeywords a) <
        scoreOf (pyLower "Should I invest in an index fund?")
          (routingKeywords AgentType.investing)) := by
  refine ⟨by decide, by decide, ?_⟩
  intro a h1 h2
  cases a <;> first | decide | exact absurd rfl h1 | exact absurd rfl h2

/-- C3: `_route_query` scores each non-general category by keyword-substring
matches on the lower-cased query, returns a category attaining the maximum
score, never returns `general`, and returns `spending` when every score is
0; the query "Should I invest in an index fund?" routes to `investing` with
score at least 1 and strictly above every other category. -/
theorem routeQuery_claim :
    (∀ q : String, routeQuery q ≠ AgentType.general) ∧
    (∀ q : String, ∀ a : AgentType, a ≠ AgentType.general →
      scoreOf (pyLower q) (routingKeywords a) ≤
        scoreOf (pyLower q) (routingKeywords (routeQuery q))) ∧
    (∀ q : String, (∀ a : AgentType, scoreOf (pyLower q) (routingKeywords a) = 0) →
      routeQuery q = AgentType.spending) ∧
    (routeQuery "Should I invest in an index fund?" = AgentType.investing ∧
      1 ≤ scoreOf (pyLower "Should I invest in an index fund?")
          (routingKeywords AgentType.investing) ∧
      (∀ a : AgentType, a ≠ AgentType.investing → a ≠ AgentType.general →
        scoreOf (pyLower "Should I invest in an index fund?") (routingKeywords a) <
          scoreOf (pyLower "Should I invest in an index fund?")
            (routingKeywords AgentType.investing))) := by
  refine ⟨router_ne_general, ?_, router_zero, router_example⟩
  intro q a ha
  cases a with
  | general => exact absurd rfl ha
  | spending => exact (router_picks_max q).1
  | investing => exact (router_picks_max q).2.1
  | savings => exact (router_picks_max q).2.2.1
  | budget => exact (router_picks_max q).2.2.2

set_option maxHeartbeats 2000000 in
/-- C3 witness: the routing claims applied at the concrete queries
"hello" (no keyword matches) and the index-fund example. -/
theorem routeQuery_claim_witness :
    routeQuery "hello" ≠ AgentType.general ∧
    scoreOf (pyLower "hello") (routingKeywords AgentType.budget) ≤
      scoreOf (pyLower "hello") (routingKeywords (routeQuery "hello")) ∧
    routeQuery "hello" = AgentType.spending ∧
    scoreOf (pyLower "Should I invest in an index fund?")
        (routingKeywords AgentType.savings) <
      scoreOf (pyLower "Should I invest in an index fund?")
        (routingKeywords AgentType.investing) :=
  ⟨routeQuery_claim.1 "hello",
   routeQuery_claim.2.1 "hello" AgentType.budget (by decide),
   routeQuery_claim.2.2.1 "hello" (by decide),
   routeQuery_claim.2.2.2.2.2 AgentType.savings (by decide) (by decide)⟩

/-- Helper: `lastN` keeps `min (length) n` elements. -/
theorem lastN_length {α : Type} (n : ℕ) (l : List α) :
    (lastN n l).length = min l.length n := by
  simp [lastN]; omega

/-- Helper: `lastN n l` is a suffix of `l` (oldest elements are dropped). -/
theorem lastN_suffix {α : Type} (n : ℕ) (l : List α) : lastN n l <:+ l :=
  List.drop_suffix _ _

/-- Helper: truncating after an append keeps the new last element. -/
theorem lastN_getLast {α : Type} (n : ℕ) (hn : 1 ≤ n) (l : List α) (e : α) :
    (lastN n (l ++ [e])).getLast? = some e := by
  rw [lastN]
  rw [List.drop_append_of_le_length (by simp; omega)]
  exact List.getLast?_concat _

/-- Helper: membership after a dict assignment. -/
theorem mem_dictSet {α : Type} (m : List (String × α)) (k : String) (v : α)
    (x : String × α) (hx : x ∈ dictSet m k v) : x.2 = v ∨ x ∈ m := by
  induction m with
  | nil => simp [dictSet] at hx; simp [hx]
  | cons p rest ih =>
    obtain ⟨k1, v1⟩ := p
    rw [dictSet] at hx
    split at hx
    · rcases List.mem_cons.1 hx with h | h
      · left; simp [h]
      · right; exact List.mem_cons_of_mem _ h
    · rcases List.mem_cons.1 hx with h | h
      · right; simp [h]
      · rcases ih h with h2 | h2
        · left; exact h2
        · right; exact List.mem_cons_of_mem _ h2

/-- Helper: a dict assignment is observable through lookup. -/
theorem lookup_dictSet {α : Type} (m : List (String × α)) (k : String) (v : α) :
    (dictSet m k v).lookup k = some v := by
  induction m with
  | nil => simp [dictSet, List.lookup]
  | cons p rest ih =>
    obtain ⟨k1, v1⟩ := p
    rw [dictSet]
    by_cases hk : k1 = k
    · simp [hk, List.lookup]
    · rw [if_neg hk]
      have hbeq : (k == k1) = false := beq_eq_false_iff_ne.mpr (fun h => hk h.symm)
      simp [List.lookup, hbeq, ih]

/-- Helper: a successful lookup is a member of the association list. -/
theorem lookup_mem {α : Type} (m : List (String × α)) (k : String) (v : α)
    (h : m.lookup k = some v) : (k, v) ∈ m := by
  induction m with
  | nil => simp [List.lookup] at h
  | cons p rest ih =>
    obtain ⟨k1, v1⟩ := p
    rw [List.lookup] at h
    cases hk : k == k1 with
    | true =>
      rw [hk] at h
      simp only [Option.some.injEq] at h
      cases beq_iff_eq.mp hk
      cases h
      exact List.mem_cons_self _ _
    | false =>
      rw [hk] at h
      exact List.mem_cons_of_mem _ (ih h)

/-- Helper: one `_update_session_state` call preserves the session-store
invariant. -/
theorem updateSession_inv (m : List (String × SessionState)) (hm : SessionInv m)
    (sid : Option String) (uid q : String) (resp : AgentResponse) (agent : String) :
    SessionInv (updateSessionState m sid uid q resp agent) := by
  match sid with
  | none => exact hm
  | some s =>
    rw [updateSessionState]
    by_cases hs : s = ""
    · simpa [hs] using hm
    · rw [if_neg hs]
      have hold : (((m.lookup s).getD (freshSession uid))).last_topics.length ≤ 3 := by
        cases hl : m.lookup s with
        | none => simp [freshSession]
        | some s0 =>
          have := hm (s, s0) (lookup_mem m s s0 hl)
          simpa [hl] using this.2
      intro p hp
      rcases mem_dictSet _ _ _ _ hp with h | h
      · refine ⟨?_, ?_⟩
        · rw [h]
          rw [lastN_length]
          exact min_le_right _ _
        · rw [h]
          cases hact : resp.metadata.suggested_action with
          | none => simpa using hold
          | some act =>
            dsimp only
            by_cases ha : act = ""
            · simpa [ha] using hold
            · rw [if_neg ha, lastN_length]
              exact min_le_right _ _
      · exact hm p h

/-- Helper: any sequence of updates preserves the invariant. -/
theorem applyUpdates_inv (ops : List UpdateOp) (m : List (String × SessionState))
    (hm : SessionInv m) : SessionInv (applyUpdates ops m) := by
  induction ops generalizing m with
  | nil => exact hm
  | cons op rest ih =>
    exact ih _ (updateSession_inv m hm op.session_id op.user_id op.query op.resp op.agent_used)

/-- C4: after any finite sequence of `_update_session_state` calls starting
from the empty store, every session's history has at most 5 entries and its
`last_topics` at most 3; each update with a truthy session id appends the
`{query, response, handler}` triple as the new last history entry (evicting
oldest entries first, the kept part being a suffix), sets `last_agent` to
the handler of the update, and appends to `last_topics` exactly when the
response carries a truthy suggested action. -/
theorem sessionUpdate_claim :
    (∀ ops : List UpdateOp, SessionInv (applyUpdates ops [])) ∧
    (∀ (m : List (String × SessionState)) (sid uid q agent : String)
        (resp : AgentResponse), sid ≠ "" →
      ∃ s1, (updateSessionState m (some sid) uid q resp agent).lookup sid = some s1 ∧
        s1.history <:+ ((m.lookup sid).getD (freshSession uid)).history ++
          [⟨q, resp.response, agent⟩] ∧
        s1.history.getLast? = some ⟨q, resp.response, agent⟩ ∧
        s1.history.length =
          min (((m.lookup sid).getD (freshSession uid)).history.length + 1) 5 ∧
        s1.last_agent = some agent ∧
        (∀ act, resp.metadata.suggested_action = some act → act ≠ "" →
          s1.last_topics <:+
            ((m.lookup sid).getD (freshSession uid)).last_topics ++ [act] ∧
          s1.last_topics.getLast? = some act ∧
          s1.last_topics.length =
            min (((m.lookup sid).getD (freshSession uid)).last_topics.length + 1) 3) ∧
        ((resp.metadata.suggested_action = none ∨ resp.metadata.suggested_action = some "") →
          s1.last_topics = ((m.lookup sid).getD (freshSession uid)).last_topics)) := by
  constructor
  · intro ops
    exact applyUpdates_inv ops [] (by intro p hp; simp at hp)
  · intro m sid uid q agent resp hsid
    rw [updateSessionState, if_neg hsid]
    refine ⟨_, lookup_dictSet _ _ _, ?_, ?_, ?_, rfl, ?_, ?_⟩
    · exact lastN_suffix _ _
    · exact lastN_getLast 5 (by norm_num) _ _
    · rw [lastN_length]; simp
    · intro act hact ha
      dsimp only
      rw [hact]
      dsimp only
      rw [if_neg ha]
      refine ⟨lastN_suffix _ _, lastN_getLast 3 (by norm_num) _ _, ?_⟩
      rw [lastN_length]; simp
    · intro hor
      dsimp only
      rcases hor with hn | he
      · rw [hn]
      · rw [he]
        dsimp only
        rw [if_pos rfl]

/-- C4 witness: the invariant and update shape at one concrete update of the
empty store. -/
theorem sessionUpdate_claim_witness :
    SessionInv (applyUpdates
      [⟨some "sess", "u", "hi",
        ⟨"ok", ⟨"spending", 9/10, "zen", [], some "save_more", none⟩⟩, "spending"⟩] []) ∧
    ∃ s1, (updateSessionState [] (some "sess") "u" "hi"
        ⟨"ok", ⟨"spending", 9/10, "zen", [], some "save_more", none⟩⟩ "spending").lookup "sess" =
        some s1 ∧ s1.last_agent = some "spending" := by
  obtain ⟨s1, h1, h2, h3, h4, h5, h6, h7⟩ := sessionUpdate_claim.2 [] "sess" "u" "hi" "spending"
    ⟨"ok", ⟨"spending", 9/10, "zen", [], some "save_more", none⟩⟩ (by decide)
  exact ⟨sessionUpdate_claim.1 _, s1, h1, h5⟩

/-- Helper: the substring test holds exactly for contiguous sublists. -/
theorem subChars_iff (n h : List Char) : subChars n h = true ↔ n <:+: h := by
  induction h with
  | nil => simp [subChars, List.isEmpty_iff, List.infix_nil]
  | cons c t ih => simp [subChars, ih, List.infix_cons_iff, List.isPrefixOf_iff_prefix]

/-- Helper: a string whose character data splits around the needle contains
the needle. -/
theorem pyInStr_of_data (needle hay : String) (pre post : List Char)
    (hh : hay.data = pre ++ needle.data ++ post) : pyInStr needle hay = true := by
  rw [pyInStr, subChars_iff, hh]
  exact ⟨pre, post, by simp⟩

set_option maxHeartbeats 1000000 in
/-- C7 counterexample: for the query "Should I buy this?" the currently
selected handler is spending, and with a session whose previous handler is
that same spending handler, `_build_enhanced_query` still includes the
handler name in the enriched query — the name appears whenever a previous
handler exists, not only when it differs from the current one (the function
never receives the currently selected handler at all). -/
theorem enhancedQuery_claim_false :
    routeQuery "Should I buy this?" = AgentType.spending ∧
    pyInStr (AgentType.val (routeQuery "Should I buy this?"))
      (buildEnhancedQuery "Should I buy this?"
        { history := [], last_agent := some (AgentType.val AgentType.spending),
          last_topics := [], user_id := "u" }) = true :=
  ⟨by decide, by decide⟩

/-- C7 (amended): the enriched query always contains the original query
text; when prior history exists it contains the immediately preceding
turn's query and the first 100 characters of its response; and it contains
the name of the previously active handler whenever one is recorded
(truthy), regardless of the currently selected handler. -/
theorem enhancedQuery_amended (q : String) (s : SessionState) :
    pyInStr q (buildEnhancedQuery q s) = true ∧
    (∀ recent, s.history.getLast? = some recent →
      pyInStr recent.query (buildEnhancedQuery q s) = true ∧
      pyInStr (recent.response.take 100) (buildEnhancedQuery q s) = true) ∧
    (∀ la, s.last_agent = some la → la ≠ "" →
      pyInStr la (buildEnhancedQuery q s) = true) := by
  unfold buildEnhancedQuery
  cases hh : s.history.getLast? with
  | none =>
    cases hla : s.last_agent with
    | none =>
      dsimp only
      refine ⟨?_, by simp, by simp⟩
      apply pyInStr_of_data _ _ [] []
      simp [String.intercalate, String.intercalate.go]
    | some la =>
      dsimp only
      by_cases hla2 : la = ""
      · rw [if_pos hla2]
        refine ⟨?_, by simp, ?_⟩
        · apply pyInStr_of_data _ _ [] []
          simp [String.intercalate, String.intercalate.go]
        · intro la2 hla3 hne
          cases Option.some.inj hla3
          exact absurd hla2 hne
      · rw [if_neg hla2]
        refine ⟨?_, by simp, ?_⟩
        · apply pyInStr_of_data _ _ [] ("\n" ++ lastAgentPart la).data
          simp [String.intercalate, String.intercalate.go]
        · intro la2 hla3 hne
          cases Option.some.inj hla3
          apply pyInStr_of_data _ _ (q ++ "\n" ++ "[Previously discussing with ").data
            " agent]".data
          simp [String.intercalate, String.intercalate.go, lastAgentPart]
  | some recent =>
    cases hla : s.last_agent with
    | none =>
      dsimp only
      refine ⟨?_, ?_, by simp⟩
      · apply pyInStr_of_data _ _ [] ("\n" ++ prevContextPart recent).data
        simp [String.intercalate, String.intercalate.go]
      · intro r2 hr2
        cases Option.some.inj hr2
        constructor
        · apply pyInStr_of_data _ _
            (q ++ "\n" ++ "\n[Previous context: User previously asked about \x27").data
            ("\x27 and you responded about \x27" ++ recent.response.take 100 ++ "...\x27]").data
          simp [String.intercalate, String.intercalate.go, prevContextPart]
        · apply pyInStr_of_data _ _
            (q ++ "\n" ++ "\n[Previous context: User previously asked about \x27" ++
              recent.query ++ "\x27 and you responded about \x27").data
            ("...\x27]").data
          simp [String.intercalate, String.intercalate.go, prevContextPart]
    | some la =>
      dsimp only
      by_cases hla2 : la = ""
      · rw [if_pos hla2]
        refine ⟨?_, ?_, ?_⟩
        · apply pyInStr_of_data _ _ [] ("\n" ++ prevContextPart recent).data
          simp [String.intercalate, String.intercalate.go]
        · intro r2 hr2
          cases Option.some.inj hr2
          constructor
          · apply pyInStr_of_data _ _
              (q ++ "\n" ++ "\n[Previous context: User previously asked about \x27").data
              ("\x27 and you responded about \x27" ++ recent.response.take 100 ++ "...\x27]").data
            simp [String.intercalate, String.intercalate.go, prevContextPart]
          · apply pyInStr_of_data _ _
              (q ++ "\n" ++ "\n[Previous context: User previously asked about \x27" ++
                recent.query ++ "\x27 and you responded about \x27").data
              ("...\x27]").data
            simp [String.intercalate, String.intercalate.go, prevContextPart]
        · intro la2 hla3 hne
          cases Option.some.inj hla3
          exact absurd hla2 hne
      · rw [if_neg hla2]
        refine ⟨?_, ?_, ?_⟩
        · apply pyInStr_of_data _ _ []
            ("\n" ++ prevContextPart recent ++ "\n" ++ lastAgentPart la).data
          simp [String.intercalate, String.intercalate.go]
        · intro r2 hr2
          cases Option.some.inj hr2
          constructor
          · apply pyInStr_of_data _ _
              (q ++ "\n" ++ "\n[Previous context: User previously asked about \x27").data
              ("\x27 and you responded about \x27" ++ recent.response.take 100 ++ "...\x27]" ++
                "\n" ++ lastAgentPart la).data
            simp [String.intercalate, String.intercalate.go, prevContextPart]
          · apply pyInStr_of_data _ _
              (q ++ "\n" ++ "\n[Previous context: User previously asked about \x27" ++
                recent.query ++ "\x27 and you responded about \x27").data
              ("...\x27]" ++ "\n" ++ lastAgentPart la).data
            simp [String.intercalate, String.intercalate.go, prevContextPart]
        · intro la2 hla3 hne
          cases Option.some.inj hla3
          apply pyInStr_of_data _ _
            (q ++ "\n" ++ prevContextPart recent ++ "\n" ++
              "[Previously discussing with ").data
            " agent]".data
          simp [String.intercalate, String.intercalate.go, lastAgentPart]

/-- C7 witness: the amended containment facts at a concrete query and a
concrete session with one prior turn and a recorded previous handler. -/
theorem enhancedQuery_amended_witness :
    pyInStr "Hi" (buildEnhancedQuery "Hi"
      ⟨[⟨"prev question", "prev answer", "investing"⟩], some "investing", [], "u"⟩) = true ∧
    pyInStr "prev question" (buildEnhancedQuery "Hi"
      ⟨[⟨"prev question", "prev answer", "investing"⟩], some "investing", [], "u"⟩) = true ∧
    pyInStr "investing" (buildEnhancedQuery "Hi"
      ⟨[⟨"prev question", "prev answer", "investing"⟩], some "investing", [], "u"⟩) = true := by
  obtain ⟨h1, h2, h3⟩ := enhancedQuery_amended "Hi"
    ⟨[⟨"prev question", "prev answer", "investing"⟩], some "investing", [], "u"⟩
  exact ⟨h1, (h2 _ rfl).1, h3 "investing" rfl (by decide)⟩

/-- C2 counterexample: when `_check_rate_limit` raises on all four attempts
the exception propagates out of the pipeline (no response object at all),
and when the collaborator returns malformed (unparseable) output the
pipeline returns confidence 0.7 with context factor "parsing_failed", not
confidence 0.0 with "error_occurred". -/
theorem generateResponse_claim_false :
    processPipeline [.rateLimit, .rateLimit, .rateLimit, .rateLimit] ["f"] "zen" "spending" =
      .error "RateLimitError" ∧
    (∃ r, processPipeline [.reply "hello" none] ["f"] "zen" "spending" = .ok r ∧
      r.metadata.confidence = 7/10 ∧ r.metadata.context_factors = ["parsing_failed"]) ∧
    (7 : ℚ)/10 ≠ 0 := by
  refine ⟨rfl, ⟨_, rfl, ?_, rfl⟩, by norm_num⟩
  norm_num [standardizeResponse, fallbackResponse, emptyMetaDict]

/-- C2 (amended): when the content-generation call itself raises, no
exception propagates and the pipeline returns a schema-complete response
(non-null string response, every metadata field present) with confidence
0.0 in [0,1] and context factors exactly ["error_occurred"]; when the
reply is malformed the pipeline returns a schema-complete fallback with
confidence 0.7 and context factors ["parsing_failed"]; a rate-limit signal
raised by the pre-check on every attempt propagates as an exception after
the bounded retries. -/
theorem generateResponse_amended :
    (∀ (msg : String) (rest : List AttemptOutcome) (cf : List String) (pers av : String),
      ∃ r, processPipeline (.genFailure msg :: rest) cf pers av = .ok r ∧
        r.metadata.confidence = 0 ∧ 0 ≤ r.metadata.confidence ∧ r.metadata.confidence ≤ 1 ∧
        r.metadata.context_factors = ["error_occurred"] ∧
        r.response =
          "I encountered an error processing your request. Please try again. Error: " ++ msg ∧
        r.metadata.suggested_action = some "retry" ∧
        r.metadata.agent = "error") ∧
    (∀ (text : String) (rest : List AttemptOutcome) (cf : List String) (pers av : String),
      ∃ r, processPipeline (.reply text none :: rest) cf pers av = .ok r ∧
        r.metadata.confidence = 7/10 ∧
        r.metadata.context_factors = ["parsing_failed"] ∧
        r.response = text) ∧
    (∀ (cf : List String) (pers av : String),
      processPipeline (List.replicate 4 .rateLimit) cf pers av = .error "RateLimitError") := by
  refine ⟨?_, ?_, ?_⟩
  · intro msg rest cf pers av
    cases rest with
    | nil =>
      exact ⟨_, rfl, rfl,
        by norm_num [standardizeResponse, errorResponse, emptyMetaDict],
        by norm_num [standardizeResponse, errorResponse, emptyMetaDict], rfl, rfl, rfl, rfl⟩
    | cons b l =>
      exact ⟨_, rfl, rfl,
        by norm_num [standardizeResponse, errorResponse, emptyMetaDict],
        by norm_num [standardizeResponse, errorResponse, emptyMetaDict], rfl, rfl, rfl, rfl⟩
  · intro text rest cf pers av
    cases rest with
    | nil => exact ⟨_, rfl, rfl, rfl, rfl⟩
    | cons b l => exact ⟨_, rfl, rfl, rfl, rfl⟩
  · intro cf pers av
    rfl

/-- C9 counterexample: a request whose context has no user id at all is not
rejected — `dispatch` assembles the query with the substitute user id
"unknown_user" and forwards even an empty query text to the pipeline. -/
theorem dispatch_claim_false :
    (⟨none, none, none⟩ : LegacyContext).user_id = none ∧
    (dispatchBuildQuery "Should I buy this?" ⟨none, none, none⟩).user_id = "unknown_user" ∧
    (dispatchBuildQuery "" ⟨none, none, none⟩).query = "" :=
  ⟨rfl, rfl, rfl⟩

/-- C9 (amended): `dispatch` never rejects a request before the pipeline:
the query text is forwarded unvalidated, a missing user id is silently
replaced by the default string "unknown_user", and a present user id is
used as given. -/
theorem dispatch_amended (m : String) (ctx : LegacyContext) :
    (dispatchBuildQuery m ctx).query = m ∧
    (ctx.user_id = none → (dispatchBuildQuery m ctx).user_id = "unknown_user") ∧
    (∀ u, ctx.user_id = some u → (dispatchBuildQuery m ctx).user_id = u) := by
  refine ⟨rfl, ?_, ?_⟩
  · intro h; simp [dispatchBuildQuery, h]
  · intro u h; simp [dispatchBuildQuery, h]

/-- C9 witness: the amended dispatch behaviour at concrete requests with a
present user id — including a present but falsy (empty-string) id, which is
forwarded unchanged rather than replaced by the default. -/
theorem dispatch_amended_witness :
    (dispatchBuildQuery "hi" ⟨some "user_9", none, none⟩).query = "hi" ∧
    (dispatchBuildQuery "hi" ⟨some "user_9", none, none⟩).user_id = "user_9" ∧
    (dispatchBuildQuery "hi" ⟨some "", none, none⟩).user_id = "" :=
  ⟨(dispatch_amended "hi" ⟨some "user_9", none, none⟩).1,
   (dispatch_amended "hi" ⟨some "user_9", none, none⟩).2.2 "user_9" rfl,
   (dispatch_amended "hi" ⟨some "", none, none⟩).2.2 "" rfl⟩
theorem groupStep_toPy (periods : List (List PyVal)) (cur : List PyVal) (start : ℤ)
    (e : WfEntry) (he : e.dateStr ≠ "") :
    groupStep (periods, cur, some start) e.toPy =
      if 3 < Int.fdiv (e.dateMin - start) 1440 then
        ((if cur.isEmpty then periods else periods ++ [cur]),
          (if e.tp = "payday_period" then [PyVal.num e.amount] else []), some e.dateMin)
      else
        (periods, (if e.tp = "payday_period" then cur ++ [PyVal.num e.amount] else cur),
          some start) := by
  simp only [groupStep, WfEntry.toPy, List.lookup]
  simp only [show ("date" == "date") = true from rfl, Option.getD]
  rw [if_neg he]
  by_cases hgap : 3 < Int.fdiv (e.dateMin - start) 1440
  · simp only [hgap, decide_True, if_pos hgap]
    by_cases htp : e.tp = "payday_period"
    · simp [pyEqStr, htp]
    · simp [pyEqStr, htp]
  · simp only [hgap, decide_False, if_neg hgap]
    by_cases htp : e.tp = "payday_period"
    · simp [pyEqStr, htp]
    · simp [pyEqStr, htp]

theorem payAmounts_single (e : WfEntry) :
    payAmounts [e] = if e.tp = "payday_period" then [PyVal.num e.amount] else [] := by
  by_cases h : e.tp = "payday_period" <;> simp [payAmounts, h]

theorem payAmounts_append (a : List WfEntry) (e : WfEntry) :
    payAmounts (a ++ [e]) = payAmounts a ++ payAmounts [e] := by
  simp [payAmounts]

theorem groupStep_none (periods : List (List PyVal)) (cur : List PyVal)
    (e : WfEntry) (he : e.dateStr ≠ "") :
    groupStep (periods, cur, Option.none) e.toPy =
      ((if cur.isEmpty then periods else periods ++ [cur]), payAmounts [e], some e.dateMin) := by
  simp only [groupStep, WfEntry.toPy, List.lookup]
  simp only [show ("date" == "date") = true from rfl, Option.getD]
  rw [if_neg he]
  rw [payAmounts_single]
  by_cases htp : e.tp = "payday_period"
  · simp [pyEqStr, htp]
  · simp [pyEqStr, htp]

theorem groupFold_spec (rest : List WfEntry) :
    ∀ (periods : List (List PyVal)) (curR : List WfEntry) (start : ℤ),
    (∀ e ∈ rest, e.dateStr ≠ "") →
    ((((rest.map WfEntry.toPy).foldl groupStep (periods, payAmounts curR, some start)).1 ++
      (if (((rest.map WfEntry.toPy).foldl groupStep
        (periods, payAmounts curR, some start)).2.1).isEmpty then []
       else [((rest.map WfEntry.toPy).foldl groupStep (periods, payAmounts curR, some start)).2.1])) =
      periods ++ ((specSplitGo start curR rest).map payAmounts).filter (fun p => !p.isEmpty)) := by
  induction rest with
  | nil =>
    intro periods curR start _
    simp [specSplitGo, List.filter]
    by_cases h : (payAmounts curR).isEmpty
    · simp [h]
    · simp [h]
  | cons e rest ih =>
    intro periods curR start hs
    have he : e.dateStr ≠ "" := hs e (List.mem_cons_self _ _)
    have hs2 : ∀ x ∈ rest, x.dateStr ≠ "" := fun x hx => hs x (List.mem_cons_of_mem _ hx)
    simp only [List.map_cons, List.foldl_cons]
    rw [groupStep_toPy _ _ _ _ he]
    by_cases hgap : 3 < Int.fdiv (e.dateMin - start) 1440
    · rw [if_pos hgap]
      have hstep : (if e.tp = "payday_period" then [PyVal.num e.amount] else []) =
        payAmounts [e] := (payAmounts_single e).symm
      rw [hstep]
      rw [ih _ [e] e.dateMin hs2]
      rw [specSplitGo]
      rw [if_pos hgap]
      simp only [List.map_cons, List.filter_cons]
      by_cases hc : (payAmounts curR).isEmpty
      · simp [hc]
      · simp [hc]
    · rw [if_neg hgap]
      have hstep : (if e.tp = "payday_period" then
          payAmounts curR ++ [PyVal.num e.amount] else payAmounts curR) =
        payAmounts (curR ++ [e]) := by
        rw [payAmounts_append, payAmounts_single]
        by_cases htp : e.tp = "payday_period" <;> simp [htp]
      rw [hstep]
      rw [ih _ (curR ++ [e]) start hs2]
      rw [specSplitGo]
      rw [if_neg hgap]

theorem groupFold_top (e : WfEntry) (rest : List WfEntry)
    (hs : ∀ x ∈ e :: rest, x.dateStr ≠ "") :
    ((((e :: rest).map WfEntry.toPy).foldl groupStep ([], [], Option.none)).1 ++
      (if ((((e :: rest).map WfEntry.toPy).foldl groupStep ([], [], Option.none)).2.1).isEmpty
       then []
       else [(((e :: rest).map WfEntry.toPy).foldl groupStep ([], [], Option.none)).2.1])) =
      ((specSplit (e :: rest)).map payAmounts).filter (fun p => !p.isEmpty) := by
  have he : e.dateStr ≠ "" := hs e (List.mem_cons_self _ _)
  have hs2 : ∀ x ∈ rest, x.dateStr ≠ "" := fun x hx => hs x (List.mem_cons_of_mem _ hx)
  simp only [List.map_cons, List.foldl_cons]
  rw [groupStep_none _ _ _ he]
  simp only [List.isEmpty_nil, if_true]
  have := groupFold_spec rest [] [e] e.dateMin hs2
  simp only [List.nil_append] at this
  rw [this]
  rw [specSplit]

theorem collectKeys_toPy (hist : List WfEntry) :
    collectKeys (hist.map WfEntry.toPy) =
      .ok (hist.map (fun e => (e.dateStr, e.toPy))) := by
  induction hist with
  | nil => rfl
  | cons e rest ih =>
    simp only [List.map_cons, collectKeys]
    rw [show entrySortKey e.toPy = .ok e.dateStr from rfl]
    rw [ih]

theorem pySum_nums (p : List ℚ) : pySum (p.map PyVal.num) = .ok p.sum := by
  induction p with
  | nil => rfl
  | cons a rest ih =>
    simp only [List.map_cons, pySum]
    rw [ih]
    simp

theorem periodTotals_nums (l : List (List ℚ)) :
    periodTotals (l.map (fun p => p.map PyVal.num)) = .ok (l.map List.sum) := by
  induction l with
  | nil => rfl
  | cons p rest ih =>
    simp only [List.map_cons, periodTotals]
    rw [pySum_nums, ih]

theorem payAmounts_eq_q (run : List WfEntry) :
    payAmounts run = (payAmountsQ run).map PyVal.num := by
  simp [payAmounts, payAmountsQ, List.map_map]

theorem specPeriodsPy_q (l : List WfEntry) :
    ((specSplit l).map payAmounts).filter (fun p => !p.isEmpty) =
      (specPeriodsQ l).map (fun p => p.map PyVal.num) := by
  rw [specPeriodsQ]
  induction (specSplit l) with
  | nil => rfl
  | cons run rest ih =>
    simp only [List.map_cons, List.filter_cons, payAmounts_eq_q]
    by_cases h : (payAmountsQ run) = []
    · simp [h, ih]
    · have h2 : ((payAmountsQ run).map PyVal.num).isEmpty = false := by
        cases hq : payAmountsQ run with
        | nil => exact absurd hq h
        | cons a b => simp
      simp only [h2, Bool.not_false, if_pos, decide_not]
      rw [ih]
      simp [h]

theorem specPeriodsQ_ne (l : List WfEntry) (p : List ℚ) (hp : p ∈ specPeriodsQ l) :
    p ≠ [] := by
  rw [specPeriodsQ] at hp
  have := List.of_mem_filter hp
  simpa using this

theorem sortedKeyed (hist : List WfEntry)
    (hsorted : hist.Pairwise (fun a b => pyStrLe a.dateStr b.dateStr = true)) :
    List.insertionSort entryLe (hist.map (fun e => (e.dateStr, e.toPy))) =
      hist.map (fun e => (e.dateStr, e.toPy)) := by
  apply List.Sorted.insertionSort_eq
  exact List.Pairwise.map _ (fun a b h => h) hsorted

/-- Helper: full symbolic execution of `_calculate_payday_patterns` on a
well-formed, date-sorted history: the stored patterns are updated to the
rounded mean overspend and period lists of the period partition (periods
delimited by a gap of more than 3 days from the period start), and left
unchanged when no period has payday-typed entries. -/
theorem calc_mkMemory (prior : List (String × PyVal)) (hist : List WfEntry)
    (hne : hist ≠ []) (hs : ∀ e ∈ hist, e.dateStr ≠ "")
    (hsorted : hist.Pairwise (fun a b => pyStrLe a.dateStr b.dateStr = true)) :
    calculatePaydayPatterns (mkMemory prior hist) =
      .ok (setPatterns (mkMemory prior hist)
        (if specPeriodsQ hist = [] then .dict prior
         else .dict (dictSet (dictSet prior "average_overspend_after_payday"
             (.num (specAverage hist)))
           "payday_periods"
           (.list ((specPeriodsQ hist).map (fun p => PyVal.list (p.map PyVal.num))))))) := by
  obtain ⟨e0, rest0, rfl⟩ : ∃ e0 rest0, hist = e0 :: rest0 := by
    cases hist with
    | nil => exact absurd rfl hne
    | cons a b => exact ⟨_, _, rfl⟩
  rw [calculatePaydayPatterns]
  rw [show (mkMemory prior (e0 :: rest0)).get "payday_info" (.dict []) =
    Except.ok (PyVal.dict [("spending_patterns", .dict prior)]) from rfl]
  dsimp only
  rw [show (PyVal.dict [("spending_patterns", .dict prior)]).get "spending_patterns" (.dict []) =
    Except.ok (PyVal.dict prior) from rfl]
  dsimp only
  rw [show (mkMemory prior (e0 :: rest0)).get "spending_history" (.list []) =
    Except.ok (PyVal.list ((e0 :: rest0).map WfEntry.toPy)) from rfl]
  dsimp only
  rw [if_neg (by simp [PyVal.truthy])]
  rw [collectKeys_toPy]
  dsimp only
  rw [sortedKeyed _ hsorted]
  have hmm : List.map Prod.snd (List.map (fun e => (e.dateStr, e.toPy)) (e0 :: rest0)) =
      List.map WfEntry.toPy (e0 :: rest0) := by simp
  rw [hmm]
  rw [groupFold_top e0 rest0 hs]
  rw [specPeriodsPy_q]
  by_cases hsp : specPeriodsQ (e0 :: rest0) = []
  · rw [if_pos hsp]
    rw [hsp]
    simp
  · rw [if_neg hsp]
    have hne2 : ((specPeriodsQ (e0 :: rest0)).map (fun p => p.map PyVal.num)).isEmpty = false := by
      cases hq : specPeriodsQ (e0 :: rest0) with
      | nil => exact absurd hq hsp
      | cons a b => simp
    rw [if_neg (by simp [hne2])]
    rw [List.filter_eq_self.mpr ?side]
    case side =>
      intro a ha
      obtain ⟨p, hp, rfl⟩ := List.mem_map.1 ha
      have := specPeriodsQ_ne _ p hp
      cases hq : p with
      | nil => exact absurd hq this
      | cons x y => simp
    rw [periodTotals_nums]
    dsimp only
    have htne : (((specPeriodsQ (e0 :: rest0)).map List.sum)).isEmpty = false := by
      cases hq : specPeriodsQ (e0 :: rest0) with
      | nil => exact absurd hq hsp
      | cons a b => simp
    rw [if_neg (by simp [htne, hsp])]
    rw [if_neg (by simp [htne, hsp])]
    simp only [List.map_map, specAverage, specOverspends]
    rfl

theorem lookup_dictSet_ne {α : Type} (m : List (String × α)) (k k' : String) (v : α)
    (h : k' ≠ k) : (dictSet m k v).lookup k' = m.lookup k' := by
  induction m with
  | nil =>
    have hb : (k' == k) = false := beq_eq_false_iff_ne.mpr h
    simp [dictSet, List.lookup, hb]
  | cons p rest ih =>
    obtain ⟨k1, v1⟩ := p
    rw [dictSet]
    by_cases hk : k1 = k
    · subst hk
      have hb : (k' == k1) = false := beq_eq_false_iff_ne.mpr h
      simp [List.lookup, hb]
    · simp only [if_neg hk]
      rw [List.lookup, List.lookup]
      cases hbk : k' == k1 with
      | true => rfl
      | false => exact ih

/-- C5 (amended): on a well-formed, date-sorted spending history the
pattern calculation groups entries into periods by the gap from the first
entry of the current period (not between consecutive entries); each
period\x27s overspend is `max(0, total - 100)`; when at least one period
has payday-typed entries the stored average becomes the mean of the
per-period overspends rounded to two decimals and the period lists are
stored; when no period exists the stored average is left unchanged (it is
0 only as initialized elsewhere). -/
theorem paydayPatterns_amended (prior : List (String × PyVal)) (hist : List WfEntry)
    (hne : hist ≠ []) (hs : ∀ e ∈ hist, e.dateStr ≠ "")
    (hsorted : hist.Pairwise (fun a b => pyStrLe a.dateStr b.dateStr = true)) :
    ∃ m, calculatePaydayPatterns (mkMemory prior hist) = .ok m ∧
      (specPeriodsQ hist ≠ [] →
        getStoredAvg m = some (.num (specAverage hist)) ∧
        getStoredPeriods m =
          some (.list ((specPeriodsQ hist).map (fun p => PyVal.list (p.map PyVal.num))))) ∧
      (specPeriodsQ hist = [] →
        getStoredAvg m = prior.lookup "average_overspend_after_payday") := by
  refine ⟨_, calc_mkMemory prior hist hne hs hsorted, ?_, ?_⟩
  · intro hsp
    rw [if_neg hsp]
    constructor
    · show (dictSet (dictSet prior "average_overspend_after_payday"
        (.num (specAverage hist))) "payday_periods" _).lookup
          "average_overspend_after_payday" = _
      rw [lookup_dictSet_ne _ _ _ _ (by decide)]
      rw [lookup_dictSet]
    · show (dictSet (dictSet prior "average_overspend_after_payday"
        (.num (specAverage hist))) "payday_periods" _).lookup "payday_periods" = _
      rw [lookup_dictSet]
  · intro hsp
    rw [if_pos hsp]
    rfl

theorem getStoredAvg_set (prior : List (String × PyVal)) (hist : List WfEntry)
    (D : List (String × PyVal)) :
    getStoredAvg (setPatterns (mkMemory prior hist) (.dict D)) =
      D.lookup "average_overspend_after_payday" := rfl

theorem getStoredPeriods_set (prior : List (String × PyVal)) (hist : List WfEntry)
    (D : List (String × PyVal)) :
    getStoredPeriods (setPatterns (mkMemory prior hist) (.dict D)) =
      D.lookup "payday_periods" := rfl

/-- C5 counterexample: three payday-typed entries of 60 on days 0, 3 and 6
have consecutive gaps of exactly 3 days (both within the window), so the
claim\x27s grouping makes one period with overspend `max(0, 180 - 100) =
80`; the code instead groups by gap from the period start, producing
periods `[60, 60]` and `[60]` with overspends 20 and 0 and a stored
average of 10 ≠ 80.  With a history whose only entry has an unparseable
date, no period exists and the stored average stays at its prior value 7,
not 0. -/
theorem paydayPatterns_claim_false :
    (calculatePaydayPatterns (mkMemory [("average_overspend_after_payday", PyVal.num 7)]
        [⟨"2024-01-01", 0, "payday_period", 60⟩, ⟨"2024-01-04", 4320, "payday_period", 60⟩,
         ⟨"2024-01-07", 8640, "payday_period", 60⟩])).map getStoredAvg =
      .ok (some (.num 10)) ∧
    Int.fdiv (4320 - 0) 1440 ≤ 3 ∧ Int.fdiv (8640 - 4320) 1440 ≤ 3 ∧
    max 0 ((60 + 60 + 60 : ℚ) - 100) = 80 ∧ (10 : ℚ) ≠ 80 ∧
    ((calculatePaydayPatterns (.dict [("payday_info",
        .dict [("spending_patterns", .dict [("average_overspend_after_payday", .num 7)])]),
        ("spending_history", .list [.dict [("date", .str "notadate" Option.none)]])])).map
          getStoredAvg = .ok (some (.num 7)) ∧ (7 : ℚ) ≠ 0) := by
  have hspec : specPeriodsQ [⟨"2024-01-01", 0, "payday_period", 60⟩,
      ⟨"2024-01-04", 4320, "payday_period", 60⟩,
      ⟨"2024-01-07", 8640, "payday_period", 60⟩] = [[60, 60], [60]] := by
    simp [specPeriodsQ, specSplit, specSplitGo, payAmountsQ,
      show ¬(3 < Int.fdiv ((4320 : ℤ) - 0) 1440) from by decide,
      show 3 < Int.fdiv ((8640 : ℤ) - 0) 1440 from by decide]
  have havg : specAverage [⟨"2024-01-01", 0, "payday_period", 60⟩,
      ⟨"2024-01-04", 4320, "payday_period", 60⟩,
      ⟨"2024-01-07", 8640, "payday_period", 60⟩] = 10 := by
    rw [specAverage, specOverspends, hspec]
    norm_num [round2, roundHalfEven]
  have hcalc := calc_mkMemory [("average_overspend_after_payday", PyVal.num 7)]
    [⟨"2024-01-01", 0, "payday_period", 60⟩, ⟨"2024-01-04", 4320, "payday_period", 60⟩,
     ⟨"2024-01-07", 8640, "payday_period", 60⟩]
    (by simp) (by decide) (by decide)
  rw [if_neg (by rw [hspec]; simp)] at hcalc
  refine ⟨?_, by decide, by decide, by norm_num, by norm_num, rfl, by norm_num⟩
  rw [hcalc]
  rw [Except.map]
  rw [getStoredAvg_set]
  rw [lookup_dictSet_ne _ _ _ _ (by decide), lookup_dictSet, havg]

/-- C5 witness: the amended theorem applied to a one-entry history. -/
theorem paydayPatterns_amended_witness :
    ∃ m, calculatePaydayPatterns
        (mkMemory [] [⟨"2024-02-01", 0, "payday_period", 150⟩]) = .ok m ∧
      getStoredAvg m = some (.num (specAverage [⟨"2024-02-01", 0, "payday_period", 150⟩])) := by
  obtain ⟨m, h1, h2, h3⟩ := paydayPatterns_amended [] [⟨"2024-02-01", 0, "payday_period", 150⟩]
    (by simp) (by decide) (by decide)
  refine ⟨m, h1, (h2 ?_).1⟩
  simp [specPeriodsQ, specSplit, specSplitGo, payAmountsQ]

theorem getCurrent_ok (kvs : List (String × PyVal))
    (hsh : ∀ v, kvs.lookup "spending_history" = some v → ∃ l, v = .list l)
    (p c : ℤ) : ∃ q, getCurrentPaydaySpending (.dict kvs) p c = .ok q := by
  rw [getCurrentPaydaySpending]
  cases hv : kvs.lookup "spending_history" with
  | none =>
    rw [show (PyVal.dict kvs).get "spending_history" (.list []) = .ok (.list []) by
      simp [PyVal.get, hv]]
    exact ⟨0, rfl⟩
  | some v =>
    obtain ⟨l, rfl⟩ := hsh v hv
    rw [show (PyVal.dict kvs).get "spending_history" (.list []) = .ok (.list l) by
      simp [PyVal.get, hv]]
    dsimp only
    by_cases hl : (PyVal.list l).truthy = false
    · rw [if_pos hl]
      exact ⟨0, rfl⟩
    · rw [if_neg hl]
      exact ⟨_, rfl⟩

theorem warning_ok (q : ℚ) (ds : ℤ) : ∃ w, generatePaydayWarning (.num q) ds = .ok w := by
  rw [generatePaydayWarning, pyGtZero]
  by_cases hq : 0 < q
  · simp [hq]
  · simp [hq]

theorem suggestion_ok (q c : ℚ) : ∃ w, generatePaydaySuggestion (.num q) c = .ok w := by
  rw [generatePaydaySuggestion, pyGtZero]
  by_cases hq : 0 < q
  · simp [hq]
  · simp [hq]

theorem detect_window (kvs pi : List (String × PyVal)) (s : String) (t cur : ℤ)
    (hpi : kvs.lookup "payday_info" = some (.dict pi)) (hpine : pi ≠ [])
    (hlp : pi.lookup "last_payday" = some (.str s (some t))) (hsne : s ≠ "")
    (hsp : ∀ w, pi.lookup "spending_patterns" = some w →
      ∃ l, w = .dict l ∧ (∀ v, l.lookup "average_overspend_after_payday" = some v →
        ∃ q, v = .num q))
    (hsh : ∀ v, kvs.lookup "spending_history" = some v → ∃ l, v = .list l) :
    ((Int.fdiv (cur - t) 1440 < 0 ∨ 3 < Int.fdiv (cur - t) 1440) →
      detectPaydayEffect (.dict kvs) cur = .ok Option.none) ∧
    (0 ≤ Int.fdiv (cur - t) 1440 → Int.fdiv (cur - t) 1440 ≤ 3 →
      ∃ eff, detectPaydayEffect (.dict kvs) cur = .ok (some eff) ∧
        eff.is_payday_period = true ∧
        eff.days_since_payday = Int.fdiv (cur - t) 1440) := by
  have hkne : kvs ≠ [] := by
    intro h
    rw [h] at hpi
    simp [List.lookup] at hpi
  rw [detectPaydayEffect]
  rw [if_neg (by simp [PyVal.truthy, List.isEmpty_iff, hkne])]
  rw [show (PyVal.dict kvs).get "payday_info" (.dict []) = .ok (.dict pi) by
    simp [PyVal.get, hpi]]
  dsimp only
  rw [if_neg (by simp [PyVal.truthy, List.isEmpty_iff, hpine])]
  rw [show (PyVal.dict pi).get "last_payday" .none = .ok (.str s (some t)) by
    simp [PyVal.get, hlp]]
  dsimp only
  rw [if_neg (by simp [PyVal.truthy, hsne])]
  rw [show fromIso (.str s (some t)) = .ok t from rfl]
  dsimp only
  constructor
  · intro hout
    rw [if_pos hout]
  · intro h0 h3
    rw [if_neg (by omega)]
    obtain ⟨cs, hcs⟩ := getCurrent_ok kvs hsh t cur
    cases hw : pi.lookup "spending_patterns" with
    | none =>
      rw [show (PyVal.dict pi).get "spending_patterns" (.dict []) = .ok (.dict []) by
        simp [PyVal.get, hw]]
      dsimp only
      rw [show (PyVal.dict ([] : List (String × PyVal))).get
        "average_overspend_after_payday" (.num 0) = .ok (.num 0) from rfl]
      dsimp only
      rw [hcs]
      dsimp only
      obtain ⟨w1, hw1⟩ := warning_ok 0 (Int.fdiv (cur - t) 1440)
      rw [hw1]
      dsimp only
      obtain ⟨w2, hw2⟩ := suggestion_ok 0 cs
      rw [hw2]
      exact ⟨_, rfl, rfl, rfl⟩
    | some w =>
      obtain ⟨l, rfl, hvq⟩ := hsp w hw
      rw [show (PyVal.dict pi).get "spending_patterns" (.dict []) = .ok (.dict l) by
        simp [PyVal.get, hw]]
      dsimp only
      cases hv : l.lookup "average_overspend_after_payday" with
      | none =>
        rw [show (PyVal.dict l).get "average_overspend_after_payday" (.num 0) =
          .ok (.num 0) by simp [PyVal.get, hv]]
        dsimp only
        rw [hcs]
        dsimp only
        obtain ⟨w1, hw1⟩ := warning_ok 0 (Int.fdiv (cur - t) 1440)
        rw [hw1]
        dsimp only
        obtain ⟨w2, hw2⟩ := suggestion_ok 0 cs
        rw [hw2]
        exact ⟨_, rfl, rfl, rfl⟩
      | some v =>
        obtain ⟨q, rfl⟩ := hvq v hv
        rw [show (PyVal.dict l).get "average_overspend_after_payday" (.num 0) =
          .ok (.num q) by simp [PyVal.get, hv]]
        dsimp only
        rw [hcs]
        dsimp only
        obtain ⟨w1, hw1⟩ := warning_ok q (Int.fdiv (cur - t) 1440)
        rw [hw1]
        dsimp only
        obtain ⟨w2, hw2⟩ := suggestion_ok q cs
        rw [hw2]
        exact ⟨_, rfl, rfl, rfl⟩

theorem detect_noLastPayday (kvs pi : List (String × PyVal)) (cur : ℤ)
    (hpi : kvs.lookup "payday_info" = some (.dict pi))
    (hlp : pi.lookup "last_payday" = Option.none ∨
      pi.lookup "last_payday" = some PyVal.none) :
    detectPaydayEffect (.dict kvs) cur = .ok Option.none := by
  have hkne : kvs ≠ [] := by
    intro h
    rw [h] at hpi
    simp [List.lookup] at hpi
  rw [detectPaydayEffect]
  rw [if_neg (by simp [PyVal.truthy, List.isEmpty_iff, hkne])]
  rw [show (PyVal.dict kvs).get "payday_info" (.dict []) = .ok (.dict pi) by
    simp [PyVal.get, hpi]]
  dsimp only
  by_cases hpine : pi = []
  · rw [if_pos (by simp [PyVal.truthy, List.isEmpty_iff, hpine])]
  · rw [if_neg (by simp [PyVal.truthy, List.isEmpty_iff, hpine])]
    have hget : (PyVal.dict pi).get "last_payday" .none = .ok PyVal.none := by
      rcases hlp with h | h <;> simp [PyVal.get, h]
    rw [hget]
    dsimp only
    rw [if_pos (by simp [PyVal.truthy])]

theorem detect_wellshaped_ok (kvs : List (String × PyVal)) (cur : ℤ)
    (hws : WellShapedMem kvs) : ∃ r, detectPaydayEffect (.dict kvs) cur = .ok r := by
  obtain ⟨h1, h2, h3⟩ := hws
  rw [detectPaydayEffect]
  by_cases hkne : kvs = []
  · rw [if_pos (by simp [PyVal.truthy, List.isEmpty_iff, hkne])]
    exact ⟨_, rfl⟩
  rw [if_neg (by simp [PyVal.truthy, List.isEmpty_iff, hkne])]
  cases hpiv : kvs.lookup "payday_info" with
  | none =>
    rw [show (PyVal.dict kvs).get "payday_info" (.dict []) = .ok (.dict []) by
      simp [PyVal.get, hpiv]]
    dsimp only
    rw [if_pos (by simp [PyVal.truthy])]
    exact ⟨_, rfl⟩
  | some piv =>
    rw [show (PyVal.dict kvs).get "payday_info" (.dict []) = .ok piv by
      simp [PyVal.get, hpiv]]
    dsimp only
    by_cases hptr : piv.truthy = false
    · rw [if_pos hptr]
      exact ⟨_, rfl⟩
    rw [if_neg hptr]
    obtain ⟨pi, rfl⟩ := h1 piv hpiv (by revert hptr; cases piv.truthy <;> simp)
    cases hlpv : pi.lookup "last_payday" with
    | none =>
      rw [show (PyVal.dict pi).get "last_payday" .none = .ok PyVal.none by
        simp [PyVal.get, hlpv]]
      dsimp only
      rw [if_pos (by simp [PyVal.truthy])]
      exact ⟨_, rfl⟩
    | some lpv =>
      rw [show (PyVal.dict pi).get "last_payday" .none = .ok lpv by
        simp [PyVal.get, hlpv]]
      dsimp only
      by_cases hltr : lpv.truthy = false
      · rw [if_pos hltr]
        exact ⟨_, rfl⟩
      rw [if_neg hltr]
      cases hiso : fromIso lpv with
      | error e =>
        exact ⟨_, rfl⟩
      | ok t =>
        dsimp only
        by_cases hwin : Int.fdiv (cur - t) 1440 < 0 ∨ 3 < Int.fdiv (cur - t) 1440
        · rw [if_pos hwin]
          exact ⟨_, rfl⟩
        rw [if_neg hwin]
        obtain ⟨cs, hcs⟩ := getCurrent_ok kvs h3 t cur
        cases hw : pi.lookup "spending_patterns" with
        | none =>
          rw [show (PyVal.dict pi).get "spending_patterns" (.dict []) = .ok (.dict []) by
            simp [PyVal.get, hw]]
          dsimp only
          rw [show (PyVal.dict ([] : List (String × PyVal))).get
            "average_overspend_after_payday" (.num 0) = .ok (.num 0) from rfl]
          dsimp only
          rw [hcs]
          dsimp only
          obtain ⟨w1, hw1⟩ := warning_ok 0 (Int.fdiv (cur - t) 1440)
          rw [hw1]
          dsimp only
          obtain ⟨w2, hw2⟩ := suggestion_ok 0 cs
          rw [hw2]
          exact ⟨_, rfl⟩
        | some w =>
          obtain ⟨l, rfl, hvq⟩ := h2 pi w hpiv hw
          rw [show (PyVal.dict pi).get "spending_patterns" (.dict []) = .ok (.dict l) by
            simp [PyVal.get, hw]]
          dsimp only
          cases hv : l.lookup "average_overspend_after_payday" with
          | none =>
            rw [show (PyVal.dict l).get "average_overspend_after_payday" (.num 0) =
              .ok (.num 0) by simp [PyVal.get, hv]]
            dsimp only
            rw [hcs]
            dsimp only
            obtain ⟨w1, hw1⟩ := warning_ok 0 (Int.fdiv (cur - t) 1440)
            rw [hw1]
            dsimp only
            obtain ⟨w2, hw2⟩ := suggestion_ok 0 cs
            rw [hw2]
            exact ⟨_, rfl⟩
          | some v =>
            obtain ⟨q, rfl⟩ := hvq v hv
            rw [show (PyVal.dict l).get "average_overspend_after_payday" (.num 0) =
              .ok (.num q) by simp [PyVal.get, hv]]
            dsimp only
            rw [hcs]
            dsimp only
            obtain ⟨w1, hw1⟩ := warning_ok q (Int.fdiv (cur - t) 1440)
            rw [hw1]
            dsimp only
            obtain ⟨w2, hw2⟩ := suggestion_ok q cs
            rw [hw2]
            exact ⟨_, rfl⟩

theorem detect_unparseable (kvs pi : List (String × PyVal)) (s : String) (cur : ℤ)
    (hpi : kvs.lookup "payday_info" = some (.dict pi))
    (hlp : pi.lookup "last_payday" = some (.str s Option.none)) :
    detectPaydayEffect (.dict kvs) cur = .ok Option.none := by
  have hkne : kvs ≠ [] := by
    intro h
    rw [h] at hpi
    simp [List.lookup] at hpi
  have hpine : pi ≠ [] := by
    intro h
    rw [h] at hlp
    simp [List.lookup] at hlp
  rw [detectPaydayEffect]
  rw [if_neg (by simp [PyVal.truthy, List.isEmpty_iff, hkne])]
  rw [show (PyVal.dict kvs).get "payday_info" (.dict []) = .ok (.dict pi) by
    simp [PyVal.get, hpi]]
  dsimp only
  rw [if_neg (by simp [PyVal.truthy, List.isEmpty_iff, hpine])]
  rw [show (PyVal.dict pi).get "last_payday" .none = .ok (.str s Option.none) by
    simp [PyVal.get, hlp]]
  dsimp only
  by_cases hse : s = ""
  · rw [if_pos (by simp [PyVal.truthy, hse])]
  · rw [if_neg (by simp [PyVal.truthy, hse])]
    rw [show fromIso (.str s Option.none) = .error .typeError from rfl]

theorem spendingStep_nonDict (p c : ℤ) (total : ℚ) (e : PyVal)
    (he : ∀ kvs, e ≠ PyVal.dict kvs) : spendingStep p c total e = total := by
  cases e with
  | dict kvs => exact absurd rfl (he kvs)
  | none => rfl
  | num q => rfl
  | str s i => rfl
  | list xs => rfl

theorem spendingStep_falsyDate (p c : ℤ) (total : ℚ) (kvs : List (String × PyVal))
    (hd : ((kvs.lookup "date").getD PyVal.none).truthy = false) :
    spendingStep p c total (PyVal.dict kvs) = total := by
  rw [spendingStep]
  cases hv : (kvs.lookup "date").getD PyVal.none with
  | str s i =>
    rw [hv] at hd
    simp [PyVal.truthy] at hd
    cases i with
    | none => rfl
    | some t => simp [hd]
  | none => rfl
  | num q => rfl
  | list xs => rfl
  | dict kvs2 => rfl

theorem spendingStep_unparseable (p c : ℤ) (total : ℚ) (kvs : List (String × PyVal))
    (s : String) (hd : (kvs.lookup "date").getD PyVal.none = .str s Option.none) :
    spendingStep p c total (PyVal.dict kvs) = total := by
  rw [spendingStep, hd]

theorem spendingStep_badAmount (p c : ℤ) (total : ℚ) (kvs : List (String × PyVal))
    (s : String) (t : ℤ)
    (hd : (kvs.lookup "date").getD PyVal.none = .str s (some t))
    (ha : ∀ q, (kvs.lookup "amount").getD (PyVal.num 0) ≠ PyVal.num q) :
    spendingStep p c total (PyVal.dict kvs) = total := by
  rw [spendingStep, hd]
  dsimp only
  by_cases hse : s = ""
  · simp [hse]
  · rw [if_neg hse]
    by_cases hrange : p ≤ t ∧ t ≤ c
    · rw [if_pos hrange]
      cases hv : (kvs.lookup "amount").getD (PyVal.num 0) with
      | num q => exact absurd hv (ha q)
      | none => rfl
      | str s2 i => rfl
      | list xs => rfl
      | dict kvs2 => rfl
    · rw [if_neg hrange]

theorem spendingFold_skip_nonDict (rest : List PyVal) (p c : ℤ) (e : PyVal)
    (he : ∀ kvs, e ≠ PyVal.dict kvs) :
    spendingFold (e :: rest) p c = spendingFold rest p c := by
  rw [spendingFold, spendingFold, List.foldl_cons, spendingStep_nonDict p c 0 e he]

theorem spendingFold_skip_falsyDate (rest : List PyVal) (p c : ℤ)
    (kvs : List (String × PyVal))
    (hd : ((kvs.lookup "date").getD PyVal.none).truthy = false) :
    spendingFold (PyVal.dict kvs :: rest) p c = spendingFold rest p c := by
  rw [spendingFold, spendingFold, List.foldl_cons, spendingStep_falsyDate p c 0 kvs hd]

theorem spendingFold_skip_unparseable (rest : List PyVal) (p c : ℤ)
    (kvs : List (String × PyVal)) (s : String)
    (hd : (kvs.lookup "date").getD PyVal.none = .str s Option.none) :
    spendingFold (PyVal.dict kvs :: rest) p c = spendingFold rest p c := by
  rw [spendingFold, spendingFold, List.foldl_cons,
    spendingStep_unparseable p c 0 kvs s hd]

theorem spendingFold_skip_badAmount (rest : List PyVal) (p c : ℤ)
    (kvs : List (String × PyVal)) (s : String) (t : ℤ)
    (hd : (kvs.lookup "date").getD PyVal.none = .str s (some t))
    (ha : ∀ q, (kvs.lookup "amount").getD (PyVal.num 0) ≠ PyVal.num q) :
    spendingFold (PyVal.dict kvs :: rest) p c = spendingFold rest p c := by
  rw [spendingFold, spendingFold, List.foldl_cons,
    spendingStep_badAmount p c 0 kvs s t hd ha]

/-- C6: with a recorded, parseable, truthy `last_payday` (and well-shaped
patterns and history so that the active path cannot raise),
`detect_payday_effect` returns None when the whole-day difference is
negative or exceeds 3, and an active effect carrying
`is_payday_period = True` and the computed `days_since_payday` when the
difference lies in [0, 3]; when no `last_payday` is recorded (key absent
or None) it returns None. -/
theorem detectPayday_claim :
    (∀ (kvs pi : List (String × PyVal)) (s : String) (t cur : ℤ),
      kvs.lookup "payday_info" = some (.dict pi) → pi ≠ [] →
      pi.lookup "last_payday" = some (.str s (some t)) → s ≠ "" →
      (∀ w, pi.lookup "spending_patterns" = some w → ∃ l, w = .dict l ∧
        (∀ v, l.lookup "average_overspend_after_payday" = some v → ∃ q, v = .num q)) →
      (∀ v, kvs.lookup "spending_history" = some v → ∃ l, v = .list l) →
      ((Int.fdiv (cur - t) 1440 < 0 ∨ 3 < Int.fdiv (cur - t) 1440 →
          detectPaydayEffect (.dict kvs) cur = .ok Option.none) ∧
        (0 ≤ Int.fdiv (cur - t) 1440 → Int.fdiv (cur - t) 1440 ≤ 3 →
          ∃ eff, detectPaydayEffect (.dict kvs) cur = .ok (some eff) ∧
            eff.is_payday_period = true ∧
            eff.days_since_payday = Int.fdiv (cur - t) 1440))) ∧
    (∀ (kvs pi : List (String × PyVal)) (cur : ℤ),
      kvs.lookup "payday_info" = some (.dict pi) →
      (pi.lookup "last_payday" = Option.none ∨
        pi.lookup "last_payday" = some PyVal.none) →
      detectPaydayEffect (.dict kvs) cur = .ok Option.none) :=
  ⟨fun kvs pi s t cur hpi hpine hlp hsne hsp hsh =>
    detect_window kvs pi s t cur hpi hpine hlp hsne hsp hsh,
   fun kvs pi cur hpi hlp => detect_noLastPayday kvs pi cur hpi hlp⟩

/-- C6 witness: the detection claims applied at a memory whose last
payday is day 0, observed 2 days later (active) and 10 days later (no
effect), and at a memory with no recorded last payday. -/
theorem detectPayday_claim_witness :
    (∃ eff, detectPaydayEffect (.dict [("payday_info",
        .dict [("last_payday", .str "2024-01-01" (some 0))])]) 2880 = .ok (some eff) ∧
      eff.is_payday_period = true ∧ eff.days_since_payday = 2) ∧
    detectPaydayEffect (.dict [("payday_info",
      .dict [("last_payday", .str "2024-01-01" (some 0))])]) 14400 = .ok Option.none ∧
    detectPaydayEffect (.dict [("payday_info",
      .dict [("note", PyVal.num 1)])]) 0 = .ok Option.none := by
  refine ⟨?_, ?_, ?_⟩
  · obtain ⟨hout, hin⟩ := detectPayday_claim.1
      [("payday_info", .dict [("last_payday", .str "2024-01-01" (some 0))])]
      [("last_payday", .str "2024-01-01" (some 0))] "2024-01-01" 0 2880 rfl (by simp) rfl
      (by simp)
      (fun w h => absurd h (by simp [List.lookup]))
      (fun v h => absurd h (by simp [List.lookup]))
    obtain ⟨eff, he1, he2, he3⟩ := hin (by decide) (by decide)
    exact ⟨eff, he1, he2, he3.trans (by decide)⟩
  · obtain ⟨hout, hin⟩ := detectPayday_claim.1
      [("payday_info", .dict [("last_payday", .str "2024-01-01" (some 0))])]
      [("last_payday", .str "2024-01-01" (some 0))] "2024-01-01" 0 14400 rfl (by simp) rfl
      (by simp)
      (fun w h => absurd h (by simp [List.lookup]))
      (fun v h => absurd h (by simp [List.lookup]))
    exact hout (by decide)
  · exact detectPayday_claim.2 _ [("note", PyVal.num 1)] 0 rfl (Or.inl rfl)

/-- C10 counterexample: `detect_payday_effect` is not total over
arbitrary dictionary-shaped memory: when the `payday_info` key holds the
number 5 (truthy, not a dict), `payday_info.get("last_payday")` raises
`AttributeError`, which no handler catches. -/
theorem detectTotal_claim_false :
    detectPaydayEffect (.dict [("payday_info", PyVal.num 5)]) 0 =
      .error .attributeError := rfl

/-- C10 (amended): `detect_payday_effect` never raises provided a truthy
`payday_info` is a dict, a present `spending_patterns` is a dict with a
numeric stored average, and a present `spending_history` is a list; within
that shape an unparseable `last_payday` string yields None, and
spending-history entries that are not dicts, have a falsy or unparseable
or non-string date, or a non-numeric amount contribute nothing to the
current-period spending total. -/
theorem detectTotal_amended :
    (∀ (kvs pi : List (String × PyVal)) (s : String) (cur : ℤ),
      kvs.lookup "payday_info" = some (.dict pi) →
      pi.lookup "last_payday" = some (.str s Option.none) →
      detectPaydayEffect (.dict kvs) cur = .ok Option.none) ∧
    (∀ (kvs : List (String × PyVal)) (cur : ℤ), WellShapedMem kvs →
      ∃ r, detectPaydayEffect (.dict kvs) cur = .ok r) ∧
    (∀ (rest : List PyVal) (p c : ℤ) (e : PyVal), (∀ kvs2, e ≠ .dict kvs2) →
      spendingFold (e :: rest) p c = spendingFold rest p c) ∧
    (∀ (rest : List PyVal) (p c : ℤ) (kvs : List (String × PyVal)),
      ((kvs.lookup "date").getD PyVal.none).truthy = false →
      spendingFold (.dict kvs :: rest) p c = spendingFold rest p c) ∧
    (∀ (rest : List PyVal) (p c : ℤ) (kvs : List (String × PyVal)) (s : String),
      (kvs.lookup "date").getD PyVal.none = .str s Option.none →
      spendingFold (.dict kvs :: rest) p c = spendingFold rest p c) ∧
    (∀ (rest : List PyVal) (p c : ℤ) (kvs : List (String × PyVal)) (s : String) (t : ℤ),
      (kvs.lookup "date").getD PyVal.none = .str s (some t) →
      (∀ q, (kvs.lookup "amount").getD (PyVal.num 0) ≠ PyVal.num q) →
      spendingFold (.dict kvs :: rest) p c = spendingFold rest p c) :=
  ⟨detect_unparseable, detect_wellshaped_ok, spendingFold_skip_nonDict,
   spendingFold_skip_falsyDate, spendingFold_skip_unparseable,
   fun rest p c kvs s t hd ha => spendingFold_skip_badAmount rest p c kvs s t hd ha⟩

/-- C10 witness: the amended claims applied at an unparseable last
payday, the empty (well-shaped) memory, and a non-dict history entry. -/
theorem detectTotal_amended_witness :
    detectPaydayEffect (.dict [("payday_info",
      .dict [("last_payday", .str "not-a-date" Option.none)])]) 0 = .ok Option.none ∧
    (∃ r, detectPaydayEffect (.dict []) 0 = .ok r) ∧
    spendingFold [PyVal.num 3] 0 0 = spendingFold [] 0 0 := by
  refine ⟨?_, ?_, ?_⟩
  · exact detectTotal_amended.1 _ [("last_payday", .str "not-a-date" Option.none)]
      "not-a-date" 0 rfl rfl
  · exact detectTotal_amended.2.1 [] 0
      ⟨fun v h => absurd h (by simp [List.lookup]),
       fun pi w h => absurd h (by simp [List.lookup]),
       fun v h => absurd h (by simp [List.lookup])⟩
  · exact detectTotal_amended.2.2.1 [] 0 0 (PyVal.num 3)
      (fun kvs2 h => PyVal.noConfusion h)
